import Mathlib

/-! # ETSI GS QKD 014 client: the C example program

Shallow embedding of `examples/c/src/main.c` and `examples/c/src/config.example.h`, and
proofs about them.

The example is a client of the `etsi014-client` library: it opens a session as a first
identity, asks the KME for its status and for three keys, closes the session, opens a session
as a second identity, asks for the same three keys by their identifiers and checks that both
identities were handed the same key bytes.

* `main` is embedded over an environment `Env` that fixes what each library call answers;
  every call `main` makes is recorded, with its arguments, in a trace, and a run ends in a
  `return`, in a failed `assert`, or in an access outside an array or a borrowed view.
* The library's C entry points (`e14_*`) and the KME are not part of the two source files.
  Where a statement is about them rather than about `main`, they are modelled from the
  specification (`KME.get_keys`, `KME.get_keys_by_ids`, `SecureKeyBuffer`).
* Definitions come first, theorems after them.
-/

namespace Etsi014

/-! ## `config.example.h` -/

/-- Host of the KME, `#define HOST`. -/
def HOST : String := "kms.example.org"

/-- Port of the KME, `#define PORT`. -/
def PORT : Nat := 443

/-- Requested key size in bits, `#define KEY_SIZE_BITS`. -/
def KEY_SIZE_BITS : Nat := 256

/-- Trust anchor used to validate the KME, `#define SERVER_CA`. -/
def SERVER_CA : String := "/usr/share/ca-certificates/mozilla/ISRG_Root_X1.crt"

/-- Identity of the first SAE, `#define SAE_ID_1`. -/
def SAE_ID_1 : String := "client-1"

/-- Private key of the first SAE, `#define KEY_1`. -/
def KEY_1 : String := "client-1.key"

/-- Certificate of the first SAE, `#define CERT_1`. -/
def CERT_1 : String := "client-1.crt"

/-- Identity of the second SAE, `#define SAE_ID_2`. -/
def SAE_ID_2 : String := "client-2"

/-- Private key of the second SAE, `#define KEY_2`. -/
def KEY_2 : String := "client-2.key"

/-- Certificate of the second SAE, `#define CERT_2`. -/
def CERT_2 : String := "client-2.crt"

/-! ## `main.c` -/

/-- The object-like definition of `main.c` line 8, `#define KEY_SIZE_BYTES KEY_SIZE_BITS / 8`.
It is used three times, as `x == KEY_SIZE_BYTES` (twice) and as the last argument of
`memcmp`; in both positions the expansion `KEY_SIZE_BITS / 8` is parsed as one operand,
because `/` binds tighter than `==` and than the argument comma. -/
def KEY_SIZE_BYTES : Nat := KEY_SIZE_BITS / 8

/-- The local `const int amount_of_keys = 3;` of `main` (line 27). -/
def amount_of_keys : Nat := 3

/-- Outcome of a fallible library call: the C functions return zero on success and a
non-zero value, with `error_str` set, on failure. -/
inductive E14Result (α : Type) where
  | ok (value : α)
  | failed (error_str : String)
  deriving DecidableEq, Repr

/-- The fields of `E14_QKD_Key` that `main` reads.  `key_bytes_protected` is a pointer to the
library's protected buffer; it is modelled by the identity of that buffer. -/
structure E14_QKD_Key where
  uuid : String
  key_size : Nat
  key_bytes_protected : Nat
  deriving DecidableEq, Repr

/-- The field of `E14_KME_Status` that `main` reads. -/
structure E14_KME_Status where
  target_sae_id : String
  deriving DecidableEq, Repr

/-- A `const KeyBytesBorrow*`: the token handed out by `e14_unprotect_qkd_key_bytes` for
one buffer and handed back to `e14_protect_qkd_key_bytes`. -/
structure KeyBytesBorrow where
  buffer : Nat
  deriving DecidableEq, Repr

/-- One call made by `main`, with the arguments it passes.  The fallible calls also record
what the library answered.  `out_len` is the number of elements of the array whose address
is passed as output parameter; `extra` and `extra_len` are the fourth and fifth argument of
`e14_get_keys`, for which `main` passes `NULL` and `0`.  The output parameters `&client`,
`&status` and `&error_str` are left out. -/
inductive Event where
  | e14_new_etsi014_client (host : String) (port : Nat) (cert key server_ca : String)
      (res : E14Result Nat)
  | e14_get_status (client : Nat) (target_sae_id : String) (res : E14Result E14_KME_Status)
  | e14_get_keys (client : Nat) (key_size_bits : Nat) (target_sae_id : String)
      (extra : Option (List String)) (extra_len : Nat)
      (amount : Nat) (out_len : Nat) (res : E14Result (List E14_QKD_Key))
  | e14_get_keys_by_ids (client : Nat) (source_sae_id : String) (key_ids : List String)
      (amount : Nat) (out_len : Nat) (res : E14Result (List E14_QKD_Key))
  | e14_free_etsi014_client (client : Nat)
  | e14_unprotect_qkd_key_bytes (buffer : Nat)
  | e14_protect_qkd_key_bytes (borrow : KeyBytesBorrow)
  | e14_free_qkd_key_bytes (buffer : Nat)
  | e14_free_error_str (error_str : String)
  | printf (text : String)
  deriving DecidableEq, Repr

/-- How a run of `main` ends. -/
inductive Outcome where
  /-- A `return` statement of `main` was reached. -/
  | returned (status : Int)
  /-- The `assert` on the given source line failed; the process aborts. -/
  | assert_failed (line : Nat)
  /-- An element outside an array was addressed on the given source line. -/
  | out_of_bounds (line : Nat)
  /-- The call of `memcmp` was asked to read more bytes than a borrowed view holds. -/
  | buffer_overread (line : Nat)
  deriving DecidableEq, Repr

/-- A finished run: how it ended and the calls made, oldest first. -/
structure Run where
  outcome : Outcome
  trace : List Event
  deriving DecidableEq, Repr

/-- What the outside world answers to `main`.  One field per call site; the two byte views
are indexed by the iteration of the checking loop in which the buffer is borrowed, and the
two `stack_*` fields give the indeterminate contents of the arrays before the library
fills them. -/
structure Env where
  new_client_1 : E14Result Nat
  get_status : E14Result E14_KME_Status
  get_keys : E14Result (List E14_QKD_Key)
  new_client_2 : E14Result Nat
  get_keys_by_ids : E14Result (List E14_QKD_Key)
  key_bytes1 : Nat → List Nat
  key_bytes2 : Nat → List Nat
  stack_keys1 : Nat → E14_QKD_Key
  stack_keys2 : Nat → E14_QKD_Key

/-- A C array declaration `T a[n];` with indeterminate initial contents. -/
def declare_array {α : Type} (n : Nat) (contents : Nat → α) : List α :=
  (List.range n).map contents

/-- Checked element read `a[i]`. -/
def read_at {α : Type} (a : List α) (i : Nat) : Option α := a[i]?

/-- Checked element write `a[i] = v`. -/
def write_at {α : Type} (a : List α) (i : Nat) (v : α) : Option (List α) :=
  if i < a.length then some (a.set i v) else none

/-- Writes `recs` to `out[i], out[i+1], ...`, each write checked. -/
def store_from {α : Type} (out : List α) : Nat → List α → Option (List α)
  | _, [] => some out
  | i, r :: rs =>
    match write_at out i r with
    | none => none
    | some out1 => store_from out1 (i + 1) rs

/-- Modelled from the spec: the output-array side of `e14_get_keys` and
`e14_get_keys_by_ids`, whose code is missing.  On success the library stores the returned
sequence, which has at most `amount` records, in the first elements of the caller's array. -/
def store_keys (out : List E14_QKD_Key) (amount : Nat) (recs : List E14_QKD_Key) :
    Option (List E14_QKD_Key) :=
  store_from out 0 (recs.take amount)

/-- The value of `memcmp` from `<string.h>` on two objects that hold at least `n` bytes: zero
when the first `n` bytes agree, and otherwise the difference of the first pair of unequal
bytes, whose sign is the sign C prescribes.  `main` only tests the value against zero. -/
def memcmp_scan : List Nat → List Nat → Nat → Int
  | a :: s1, b :: s2, n + 1 => if a = b then memcmp_scan s1 s2 n else (a : Int) - (b : Int)
  | _, _, _ => 0

/-- The call `memcmp(s1, s2, n)`; `none` when one of the two objects has fewer than `n` bytes. -/
def memcmp (s1 s2 : List Nat) (n : Nat) : Option Int :=
  if n ≤ s1.length ∧ n ≤ s2.length then some (memcmp_scan s1 s2 n) else none

/-- A `for (int i = start; i < start + n; i++) body` loop whose body neither changes `i` nor
the bound: `n` iterations, stopping early when the body leaves `main`. -/
def for_loop {σ ε : Type} (body : Nat → σ → Except ε σ) : Nat → Nat → σ → Except ε σ
  | _, 0, s => .ok s
  | i, n + 1, s =>
    match body i s with
    | .error e => .error e
    | .ok s1 => for_loop body (i + 1) n s1

/-- Body of the first loop, lines 36-37. -/
def print_body (keys1 : List E14_QKD_Key) (i : Nat) (t : List Event) :
    Except Run (List Event) :=
  match read_at keys1 i with
  | none => .error ⟨.out_of_bounds 36, t⟩
  | some key => .ok (t ++ [.printf (key.uuid ++ "\n")])

/-- Body of the second loop, lines 55-69. -/
def check_body (env : Env) (keys1 keys2 : List E14_QKD_Key) (i : Nat) (t : List Event) :
    Except Run (List Event) :=
  match read_at keys1 i, read_at keys2 i with
  | some k1, some k2 =>
    if k1.uuid ≠ k2.uuid then .error ⟨.assert_failed 55, t⟩
    else if k1.key_size ≠ KEY_SIZE_BYTES then .error ⟨.assert_failed 56, t⟩
    else if k2.key_size ≠ KEY_SIZE_BYTES then .error ⟨.assert_failed 57, t⟩
    else
      let borrow1 : KeyBytesBorrow := ⟨k1.key_bytes_protected⟩
      let key_bytes1 := env.key_bytes1 i
      let t := t ++ [.e14_unprotect_qkd_key_bytes k1.key_bytes_protected]
      let borrow2 : KeyBytesBorrow := ⟨k2.key_bytes_protected⟩
      let key_bytes2 := env.key_bytes2 i
      let t := t ++ [.e14_unprotect_qkd_key_bytes k2.key_bytes_protected]
      match memcmp key_bytes1 key_bytes2 KEY_SIZE_BYTES with
      | none => .error ⟨.buffer_overread 65, t⟩
      | some r =>
        if r ≠ 0 then .error ⟨.assert_failed 65, t⟩
        else .ok (t ++ [.e14_protect_qkd_key_bytes borrow1, .e14_protect_qkd_key_bytes borrow2,
                        .e14_free_qkd_key_bytes k1.key_bytes_protected,
                        .e14_free_qkd_key_bytes k2.key_bytes_protected])
  | _, _ => .error ⟨.out_of_bounds 55, t⟩

/-- The initialiser of line 46, `{ keys1[0].uuid, keys1[1].uuid, keys1[2].uuid }`. -/
def key_ids_init (keys1 : List E14_QKD_Key) : Option (List String) :=
  match read_at keys1 0, read_at keys1 1, read_at keys1 2 with
  | some a, some b, some c => some [a.uuid, b.uuid, c.uuid]
  | _, _, _ => none

/-- The function `main` of `main.c`.  The trace `t` grows by one event per call.  A fallible
call that fails makes `main` print the message, free the error string and return 1.  The
arrays `keys1` and `keys2` are declared with `amount_of_keys` elements and filled by the
library (`store_keys`); every read of an element is checked.  `assert` is the one of
`<assert.h>` with `NDEBUG` not defined, as in the source: a false condition ends the run.
After its last use a freed pointer variable is not read again, so the nulling of `client`
and of `key_bytes_protected` by the `e14_free_*` calls is not represented. -/
def main (env : Env) : Run :=
  -- lines 12-19
  let t := [Event.e14_new_etsi014_client HOST PORT CERT_1 KEY_1 SERVER_CA env.new_client_1]
  match env.new_client_1 with
  | .failed error_str =>
    ⟨.returned 1, t ++ [.printf ("Failed to create etsi014 client: " ++ error_str ++ "\n"),
                        .e14_free_error_str error_str]⟩
  | .ok client =>
  -- lines 20-26
  let t := t ++ [.e14_get_status client SAE_ID_2 env.get_status]
  match env.get_status with
  | .failed error_str =>
    ⟨.returned 1, t ++ [.printf ("Failed to get status: " ++ error_str ++ "\n"),
                        .e14_free_error_str error_str]⟩
  | .ok status =>
  let t := t ++ [.printf ("target_sae_id: " ++ status.target_sae_id ++ "\n")]
  -- lines 27-34
  let keys1 := declare_array amount_of_keys env.stack_keys1
  let t := t ++ [.e14_get_keys client KEY_SIZE_BITS SAE_ID_2 none 0 amount_of_keys keys1.length
                   env.get_keys]
  match env.get_keys with
  | .failed error_str =>
    ⟨.returned 1, t ++ [.printf ("Failed to get keys: " ++ error_str ++ "\n"),
                        .e14_free_error_str error_str]⟩
  | .ok recs1 =>
  match store_keys keys1 amount_of_keys recs1 with
  | none => ⟨.out_of_bounds 29, t⟩
  | some keys1 =>
  -- lines 35-38
  match for_loop (print_body keys1) 0 amount_of_keys t with
  | .error r => r
  | .ok t =>
  -- lines 39-45
  let t := t ++ [.e14_free_etsi014_client client]
  let t := t ++ [.e14_new_etsi014_client HOST PORT CERT_2 KEY_2 SERVER_CA env.new_client_2]
  match env.new_client_2 with
  | .failed error_str =>
    ⟨.returned 1, t ++ [.printf ("Failed to create etsi014 client: " ++ error_str ++ "\n"),
                        .e14_free_error_str error_str]⟩
  | .ok client =>
  -- lines 46-53
  match key_ids_init keys1 with
  | none => ⟨.out_of_bounds 46, t⟩
  | some key_ids =>
  let keys2 := declare_array amount_of_keys env.stack_keys2
  let t := t ++ [.e14_get_keys_by_ids client SAE_ID_1 key_ids amount_of_keys keys2.length
                   env.get_keys_by_ids]
  match env.get_keys_by_ids with
  | .failed error_str =>
    ⟨.returned 1, t ++ [.printf ("Failed to get keys: " ++ error_str ++ "\n"),
                        .e14_free_error_str error_str]⟩
  | .ok recs2 =>
  match store_keys keys2 amount_of_keys recs2 with
  | none => ⟨.out_of_bounds 48, t⟩
  | some keys2 =>
  -- lines 54-70
  match for_loop (check_body env keys1 keys2) 0 amount_of_keys t with
  | .error r => r
  | .ok t =>
  -- lines 71-72
  ⟨.returned 0, t ++ [.e14_free_etsi014_client client]⟩

/-! ## The paths through `main` -/

/-- The four assertions of iteration `i` of the second loop (lines 55, 56, 57 and 65). -/
def assertions_hold (env : Env) (k1 k2 : E14_QKD_Key) (i : Nat) : Prop :=
  k1.uuid = k2.uuid ∧ k1.key_size = KEY_SIZE_BYTES ∧ k2.key_size = KEY_SIZE_BYTES ∧
    memcmp (env.key_bytes1 i) (env.key_bytes2 i) KEY_SIZE_BYTES = some 0

instance (env : Env) (k1 k2 : E14_QKD_Key) (i : Nat) :
    Decidable (assertions_hold env k1 k2 i) := by
  unfold assertions_hold; infer_instance

/-- The calls of one complete iteration of the second loop (lines 60-69). -/
def iteration_events (k1 k2 : E14_QKD_Key) : List Event :=
  [.e14_unprotect_qkd_key_bytes k1.key_bytes_protected,
   .e14_unprotect_qkd_key_bytes k2.key_bytes_protected,
   .e14_protect_qkd_key_bytes ⟨k1.key_bytes_protected⟩,
   .e14_protect_qkd_key_bytes ⟨k2.key_bytes_protected⟩,
   .e14_free_qkd_key_bytes k1.key_bytes_protected,
   .e14_free_qkd_key_bytes k2.key_bytes_protected]

/-- The run ended in `abort()` rather than in a `return`. -/
def Outcome.aborted : Outcome → Prop
  | .assert_failed _ => True
  | .buffer_overread _ => True
  | _ => False

/-- The two borrows of an iteration that stops at the assertion of line 65. -/
def borrow_events (k1 k2 : E14_QKD_Key) : List Event :=
  [.e14_unprotect_qkd_key_bytes k1.key_bytes_protected,
   .e14_unprotect_qkd_key_bytes k2.key_bytes_protected]

/-- The event is one of the three calls on a protected key buffer. -/
def Event.on_key_buffer : Event → Prop
  | .e14_unprotect_qkd_key_bytes _ => True
  | .e14_protect_qkd_key_bytes _ => True
  | .e14_free_qkd_key_bytes _ => True
  | _ => False

/-- In some iteration of the second loop the sizes pass the assertions of lines 56 and 57
and `memcmp` is asked for more bytes than one of the two borrowed views holds. -/
def overread_at (env : Env) (keys1 keys2 : List E14_QKD_Key) : Prop :=
  ∃ i k1 k2, read_at keys1 i = some k1 ∧ read_at keys2 i = some k2 ∧
    k1.key_size = KEY_SIZE_BYTES ∧ k2.key_size = KEY_SIZE_BYTES ∧
    memcmp (env.key_bytes1 i) (env.key_bytes2 i) KEY_SIZE_BYTES = none

/-- All assertions of the second loop hold, for arrays `[a, b, c]` and `[d, e, f]`. -/
def all_assertions_hold (env : Env) (a b c d e f : E14_QKD_Key) : Prop :=
  assertions_hold env a d 0 ∧ assertions_hold env b e 1 ∧ assertions_hold env c f 2

/-- The two calls of every error branch: the message is printed and the error string freed. -/
def failure_events (text error_str : String) : List Event :=
  [.printf (text ++ error_str ++ "\n"), .e14_free_error_str error_str]

/-- Calls up to and including `e14_get_status` (lines 14-21). -/
def trace_status (env : Env) (c1 : Nat) : List Event :=
  [.e14_new_etsi014_client HOST PORT CERT_1 KEY_1 SERVER_CA env.new_client_1,
   .e14_get_status c1 SAE_ID_2 env.get_status]

/-- Calls up to and including `e14_get_keys` (lines 14-29). -/
def trace_get_keys (env : Env) (c1 : Nat) (st : E14_KME_Status) : List Event :=
  trace_status env c1 ++
    [.printf ("target_sae_id: " ++ st.target_sae_id ++ "\n"),
     .e14_get_keys c1 KEY_SIZE_BITS SAE_ID_2 none 0 amount_of_keys amount_of_keys env.get_keys]

/-- Calls up to and including the second `e14_new_etsi014_client` (lines 14-40). -/
def trace_open_2 (env : Env) (c1 : Nat) (st : E14_KME_Status) (a b c : E14_QKD_Key) :
    List Event :=
  trace_get_keys env c1 st ++
    [.printf (a.uuid ++ "\n"), .printf (b.uuid ++ "\n"), .printf (c.uuid ++ "\n"),
     .e14_free_etsi014_client c1,
     .e14_new_etsi014_client HOST PORT CERT_2 KEY_2 SERVER_CA env.new_client_2]

/-- Calls up to and including `e14_get_keys_by_ids` (lines 14-48). -/
def trace_by_ids (env : Env) (c1 : Nat) (st : E14_KME_Status) (a b c : E14_QKD_Key)
    (c2 : Nat) : List Event :=
  trace_open_2 env c1 st a b c ++
    [.e14_get_keys_by_ids c2 SAE_ID_1 [a.uuid, b.uuid, c.uuid] amount_of_keys amount_of_keys
       env.get_keys_by_ids]

/-- The paths through `main`: which answers of the environment select the path, and the run
`main` then makes. -/
inductive MainPath (env : Env) : Run → Prop where
  | open_1_failed (m : String) (h1 : env.new_client_1 = .failed m) :
      MainPath env
        ⟨.returned 1,
         [.e14_new_etsi014_client HOST PORT CERT_1 KEY_1 SERVER_CA env.new_client_1] ++
           failure_events "Failed to create etsi014 client: " m⟩
  | status_failed (c1 : Nat) (m : String) (h1 : env.new_client_1 = .ok c1)
      (h2 : env.get_status = .failed m) :
      MainPath env
        ⟨.returned 1, trace_status env c1 ++ failure_events "Failed to get status: " m⟩
  | get_keys_failed (c1 : Nat) (st : E14_KME_Status) (m : String)
      (h1 : env.new_client_1 = .ok c1) (h2 : env.get_status = .ok st)
      (h3 : env.get_keys = .failed m) :
      MainPath env
        ⟨.returned 1, trace_get_keys env c1 st ++ failure_events "Failed to get keys: " m⟩
  | open_2_failed (c1 : Nat) (st : E14_KME_Status) (recs1 : List E14_QKD_Key)
      (a b c : E14_QKD_Key) (m : String)
      (h1 : env.new_client_1 = .ok c1) (h2 : env.get_status = .ok st)
      (h3 : env.get_keys = .ok recs1)
      (hk1 : store_keys (declare_array amount_of_keys env.stack_keys1) amount_of_keys recs1
        = some [a, b, c])
      (h4 : env.new_client_2 = .failed m) :
      MainPath env
        ⟨.returned 1,
         trace_open_2 env c1 st a b c ++
           failure_events "Failed to create etsi014 client: " m⟩
  | by_ids_failed (c1 : Nat) (st : E14_KME_Status) (recs1 : List E14_QKD_Key)
      (a b c : E14_QKD_Key) (c2 : Nat) (m : String)
      (h1 : env.new_client_1 = .ok c1) (h2 : env.get_status = .ok st)
      (h3 : env.get_keys = .ok recs1)
      (hk1 : store_keys (declare_array amount_of_keys env.stack_keys1) amount_of_keys recs1
        = some [a, b, c])
      (h4 : env.new_client_2 = .ok c2) (h5 : env.get_keys_by_ids = .failed m) :
      MainPath env
        ⟨.returned 1,
         trace_by_ids env c1 st a b c c2 ++ failure_events "Failed to get keys: " m⟩
  | aborted (c1 : Nat) (st : E14_KME_Status) (recs1 : List E14_QKD_Key)
      (a b c : E14_QKD_Key) (c2 : Nat) (recs2 : List E14_QKD_Key) (d e f : E14_QKD_Key)
      (o : Outcome) (es : List Event)
      (h1 : env.new_client_1 = .ok c1) (h2 : env.get_status = .ok st)
      (h3 : env.get_keys = .ok recs1)
      (hk1 : store_keys (declare_array amount_of_keys env.stack_keys1) amount_of_keys recs1
        = some [a, b, c])
      (h4 : env.new_client_2 = .ok c2) (h5 : env.get_keys_by_ids = .ok recs2)
      (hk2 : store_keys (declare_array amount_of_keys env.stack_keys2) amount_of_keys recs2
        = some [d, e, f])
      (ha : ¬ all_assertions_hold env a b c d e f)
      (ho : o.aborted) (hes : ∀ ev ∈ es, ev.on_key_buffer)
      (hov : ∀ line, o = .buffer_overread line → overread_at env [a, b, c] [d, e, f]) :
      MainPath env ⟨o, trace_by_ids env c1 st a b c c2 ++ es⟩
  | success (c1 : Nat) (st : E14_KME_Status) (recs1 : List E14_QKD_Key)
      (a b c : E14_QKD_Key) (c2 : Nat) (recs2 : List E14_QKD_Key) (d e f : E14_QKD_Key)
      (h1 : env.new_client_1 = .ok c1) (h2 : env.get_status = .ok st)
      (h3 : env.get_keys = .ok recs1)
      (hk1 : store_keys (declare_array amount_of_keys env.stack_keys1) amount_of_keys recs1
        = some [a, b, c])
      (h4 : env.new_client_2 = .ok c2) (h5 : env.get_keys_by_ids = .ok recs2)
      (hk2 : store_keys (declare_array amount_of_keys env.stack_keys2) amount_of_keys recs2
        = some [d, e, f])
      (ha : all_assertions_hold env a b c d e f) :
      MainPath env
        ⟨.returned 0,
         trace_by_ids env c1 st a b c c2 ++
           (iteration_events a d ++ iteration_events b e ++ iteration_events c f) ++
           [.e14_free_etsi014_client c2]⟩

/-! ## Properties of traces: sessions -/

/-- A session opened by `e14_new_etsi014_client`: the handle stored in `client` and the
certificate and private key the session was opened with. -/
structure Session where
  client : Nat
  cert : String
  key : String
  deriving DecidableEq, Repr

/-- The sessions seen so far: the one that is open, if any, and the closed ones, in the
order in which they were closed. -/
structure Sessions where
  live : Option Session
  closed : List Session
  deriving DecidableEq, Repr

/-- No session has been opened yet. -/
def Sessions.init : Sessions := ⟨none, []⟩

/-- Every session opened so far, in the order of opening when at most one is open at a
time. -/
def Sessions.all (s : Sessions) : List Session := s.closed ++ s.live.toList

/-- The session discipline, one call at a time.  A successful open is accepted only when no
session is open; a failed open creates nothing; a protocol operation and a close are
accepted only on the handle of the open session, and a close ends it.  `none` is a
violation. -/
def Sessions.step (s : Sessions) : Event → Option Sessions
  | .e14_new_etsi014_client _ _ cert key _ (.ok c) =>
    match s.live with
    | some _ => none
    | none => some { s with live := some ⟨c, cert, key⟩ }
  | .e14_new_etsi014_client _ _ _ _ _ (.failed _) => some s
  | .e14_get_status c _ _ => if s.live.map Session.client = some c then some s else none
  | .e14_get_keys c _ _ _ _ _ _ _ => if s.live.map Session.client = some c then some s else none
  | .e14_get_keys_by_ids c _ _ _ _ _ =>
    if s.live.map Session.client = some c then some s else none
  | .e14_free_etsi014_client c =>
    match s.live with
    | some x => if x.client = c then some ⟨none, s.closed ++ [x]⟩ else none
    | none => none
  | _ => some s

/-- The session discipline along a trace. -/
def Sessions.run : Sessions → List Event → Option Sessions
  | s, [] => some s
  | s, e :: es =>
    match s.step e with
    | none => none
    | some s1 => Sessions.run s1 es

/-- The identities (certificate, private key) of the sessions opened so far are an initial
part of: identity 1, then identity 2. -/
def Sessions.identities_in_order (s : Sessions) : Prop :=
  ∃ rest, s.all.map (fun x => (x.cert, x.key)) ++ rest = [(CERT_1, KEY_1), (CERT_2, KEY_2)]

/-! ## Properties of traces: fallible calls -/

/-- The error message of a fallible call that failed. -/
def Event.failure : Event → Option String
  | .e14_new_etsi014_client _ _ _ _ _ (.failed m) => some m
  | .e14_get_status _ _ (.failed m) => some m
  | .e14_get_keys _ _ _ _ _ _ _ (.failed m) => some m
  | .e14_get_keys_by_ids _ _ _ _ _ (.failed m) => some m
  | _ => none

/-- The event is a call into the library (everything but `printf`). -/
def Event.is_library_call : Event → Prop
  | .printf _ => False
  | _ => True

/-- The five fallible operations of `main`; the two opens differ in the identity used. -/
inductive Operation where
  | open_session (cert key : String)
  | get_status
  | get_keys
  | get_keys_by_ids
  deriving DecidableEq, Repr

/-- The fallible operation an event is a call of, if any. -/
def Event.operation : Event → Option Operation
  | .e14_new_etsi014_client _ _ cert key _ _ => some (Operation.open_session cert key)
  | .e14_get_status _ _ _ => some Operation.get_status
  | .e14_get_keys _ _ _ _ _ _ _ _ => some Operation.get_keys
  | .e14_get_keys_by_ids _ _ _ _ _ _ => some Operation.get_keys_by_ids
  | _ => none

/-- The event uses the client handle: a protocol operation or a close. -/
def Event.uses_client : Event → Prop
  | .e14_get_status _ _ _ => True
  | .e14_get_keys _ _ _ _ _ _ _ _ => True
  | .e14_get_keys_by_ids _ _ _ _ _ _ => True
  | .e14_free_etsi014_client _ => True
  | _ => False

/-- The event frees an error string. -/
def Event.frees_error_str : Event → Bool
  | .e14_free_error_str _ => true
  | _ => false

/-- All five fallible calls are answered with success. -/
def Env.all_succeed (env : Env) : Prop :=
  (∃ c1, env.new_client_1 = .ok c1) ∧ (∃ st, env.get_status = .ok st) ∧
    (∃ recs1, env.get_keys = .ok recs1) ∧ (∃ c2, env.new_client_2 = .ok c2) ∧
    (∃ recs2, env.get_keys_by_ids = .ok recs2)

/-- Every assertion of the second loop holds on the arrays as the two key requests leave
them. -/
def Env.assertions_hold (env : Env) : Prop :=
  ∃ recs1 recs2 a b c d e f,
    env.get_keys = .ok recs1 ∧ env.get_keys_by_ids = .ok recs2 ∧
    store_keys (declare_array amount_of_keys env.stack_keys1) amount_of_keys recs1
      = some [a, b, c] ∧
    store_keys (declare_array amount_of_keys env.stack_keys2) amount_of_keys recs2
      = some [d, e, f] ∧
    all_assertions_hold env a b c d e f

/-! ## Properties of traces: protected key buffers -/

/-- Modelled from the spec: the states of a SecureKeyBuffer (section 4.5); the library that
implements them is missing. -/
inductive BufferState where
  | Protected
  | Borrowed
  | Released
  deriving DecidableEq, Repr

/-- Modelled from the spec: the operations on a SecureKeyBuffer (section 4.5), `borrow`,
`return_borrow` and `release`; in the C interface `e14_unprotect_qkd_key_bytes`,
`e14_protect_qkd_key_bytes` and `e14_free_qkd_key_bytes`. -/
inductive BufferOp where
  | borrow
  | return_borrow
  | release
  deriving DecidableEq, Repr

/-- Modelled from the spec: the transitions of a SecureKeyBuffer (section 4.5).  `borrow`
takes *Protected* to *Borrowed*, `return_borrow` takes *Borrowed* to *Protected*, `release`
is valid only from *Protected*; every other use is a caller error (`none`). -/
def BufferState.apply : BufferState → BufferOp → Option BufferState
  | .Protected, .borrow => some .Borrowed
  | .Borrowed, .return_borrow => some .Protected
  | .Protected, .release => some .Released
  | _, _ => none

/-- The operation an event performs on the buffer `buf`, if any. -/
def Event.buffer_op (buf : Nat) : Event → Option BufferOp
  | .e14_unprotect_qkd_key_bytes b => if b = buf then some .borrow else none
  | .e14_protect_qkd_key_bytes borrow => if borrow.buffer = buf then some .return_borrow else none
  | .e14_free_qkd_key_bytes b => if b = buf then some .release else none
  | _ => none

/-- The states buffer `buf` enters along a trace, starting from state `st`; `none` when a
call on the buffer is a caller error. -/
def buffer_states (buf : Nat) : BufferState → List Event → Option (List BufferState)
  | _, [] => some []
  | st, e :: es =>
    match e.buffer_op buf with
    | none => buffer_states buf st es
    | some op =>
      match st.apply op with
      | none => none
      | some st1 => (buffer_states buf st1 es).map (fun l => st1 :: l)

/-- The states of buffer `buf` along a trace, from its creation in the *Protected* state. -/
def buffer_lifecycle (buf : Nat) (t : List Event) : Option (List BufferState) :=
  (buffer_states buf .Protected t).map (fun l => BufferState.Protected :: l)

/-- Modelled from the spec: the error kinds of section 7; the library's error type is
missing. -/
inductive ErrorKind where
  | ConnectionFailed
  | TLSHandshakeFailed
  | InvalidCredentials
  | TransportError
  | ProtocolError
  | InvalidKeySize
  | InsufficientKeyMaterial
  | TargetUnknown
  | UnknownKeyId
  | CountMismatch
  | AlreadyBorrowed
  deriving DecidableEq, Repr

/-- Modelled from the spec: the SecureKeyBuffer of section 3, an owner of secret bytes that is
*protected* after creation; the library's buffer type is missing. -/
structure SecureKeyBuffer where
  bytes : List Nat
  state : BufferState
  deriving DecidableEq, Repr

/-- Modelled from the spec: `borrow` of section 4.5, missing from the sources.  From
*Protected* the buffer becomes *Borrowed* and its bytes are exposed; otherwise the call
fails with `AlreadyBorrowed`. -/
def SecureKeyBuffer.borrow (b : SecureKeyBuffer) : Except ErrorKind (SecureKeyBuffer × List Nat) :=
  match b.state.apply .borrow with
  | some st => .ok ({ b with state := st }, b.bytes)
  | none => .error .AlreadyBorrowed

/-- Modelled from the spec: `return_borrow` of section 4.5, missing from the sources.  It
takes *Borrowed* back to *Protected*; in any other state it is a caller error (`none`). -/
def SecureKeyBuffer.return_borrow (b : SecureKeyBuffer) : Option SecureKeyBuffer :=
  (b.state.apply .return_borrow).map (fun st => { b with state := st })

/-- Modelled from the spec: `release` of section 4.5, missing from the sources.  Valid only
from *Protected*; the memory is overwritten with zeros. -/
def SecureKeyBuffer.release (b : SecureKeyBuffer) : Option SecureKeyBuffer :=
  (b.state.apply .release).map (fun st => ⟨List.replicate b.bytes.length 0, st⟩)

/-- Modelled from the spec: the KeyRecord of section 3, a key identifier, a size in bytes and
the buffer the record owns; the library's record type is missing. -/
structure KeyRecord where
  key_id : String
  key_size : Nat
  buffer : SecureKeyBuffer
  deriving DecidableEq, Repr

/-- Modelled from the spec: a key the KME has handed to the SAE that asked for it with
get_keys (`master_sae`) and keeps for the peer named in that request (`slave_sae`); the KME
is missing from the sources. -/
structure IssuedKey where
  key_id : String
  master_sae : String
  slave_sae : String
  bytes : List Nat
  deriving DecidableEq, Repr

/-- Modelled from the spec: the key material the KME holds for one pair of SAEs
(section 4.3, "the KME's pool for this target pair"). -/
structure KeyPool where
  master_sae : String
  slave_sae : String
  material : List Nat
  deriving DecidableEq, Repr

/-- Modelled from the spec: the state of the KME, which is missing from the sources.  It has
one pool of unconsumed key material per pair of SAEs, a supply of identifiers it has not used
yet (identifiers are unique within the KME, section 3), and the keys issued so far. -/
structure KME where
  pools : List KeyPool
  fresh_ids : List String
  issued : List IssuedKey
  deriving DecidableEq, Repr

/-- Modelled from the spec: identifiers are "globally unique within the KME's key pool"
(section 3): no identifier is issued twice and no unused identifier was issued. -/
def KME.WF (kme : KME) : Prop :=
  (kme.issued.map IssuedKey.key_id ++ kme.fresh_ids).Nodup

instance (kme : KME) : Decidable kme.WF := by
  unfold KME.WF; infer_instance

/-- Modelled from the spec: the unconsumed material of the pool of a pair of SAEs. -/
def KME.material (kme : KME) (master slave : String) : List Nat :=
  match kme.pools.find? (fun p => p.master_sae = master ∧ p.slave_sae = slave) with
  | some p => p.material
  | none => []

/-- Modelled from the spec: get_keys "consumes key material from the KME's pool for this
target pair" (section 4.3): the first `n` bytes of the pair's pool are removed. -/
def KME.consume (kme : KME) (master slave : String) (n : Nat) : List KeyPool :=
  kme.pools.map (fun p =>
    if p.master_sae = master ∧ p.slave_sae = slave then { p with material := p.material.drop n }
    else p)

/-- Modelled from the spec: `count` consecutive keys of `key_size` bytes cut from key
material. -/
def cut_keys (key_size : Nat) : Nat → List Nat → List (List Nat)
  | 0, _ => []
  | count + 1, material =>
    material.take key_size :: cut_keys key_size count (material.drop key_size)

/-- Modelled from the spec: the KeyRecord the library builds for a key of a get_keys
response: the size is the requested size converted to bytes, and the buffer "starts in the
*protected* state" (section 4.3). -/
def KeyRecord.of_request (key_size : Nat) (key_id : String) (bytes : List Nat) : KeyRecord :=
  ⟨key_id, key_size, ⟨bytes, .Protected⟩⟩

/-- Modelled from the spec: the KeyRecord the library builds for a key of a get_keys_by_ids
response, whose request names no size: the size is the number of bytes received. -/
def KeyRecord.of_issued (k : IssuedKey) : KeyRecord :=
  ⟨k.key_id, k.bytes.length, ⟨k.bytes, .Protected⟩⟩

/-- Modelled from the spec: the get_keys operation of section 4.3, missing from the sources,
called by the SAE `caller` for the peer `target`.  `key_size_bits` must be positive and a
multiple of 8 (`InvalidKeySize` otherwise) and is converted to bytes.  The KME hands out as
many keys as it holds material and unused identifiers for, at most `count`, and fails with
`InsufficientKeyMaterial` when keys are requested and it can hand out none.  The material is
consumed and the keys are kept, under fresh identifiers, for the peer. -/
def KME.get_keys (kme : KME) (caller target : String) (key_size_bits count : Nat) :
    Except ErrorKind (List KeyRecord × KME) :=
  if key_size_bits = 0 ∨ key_size_bits % 8 ≠ 0 then .error .InvalidKeySize
  else
    let key_size := key_size_bits / 8
    let n := min count (min ((kme.material caller target).length / key_size)
      kme.fresh_ids.length)
    if n = 0 ∧ count ≠ 0 then .error .InsufficientKeyMaterial
    else
      let ids := kme.fresh_ids.take n
      let keys := cut_keys key_size n (kme.material caller target)
      .ok (List.zipWith (KeyRecord.of_request key_size) ids keys,
           { pools := kme.consume caller target (n * key_size),
             fresh_ids := kme.fresh_ids.drop n,
             issued := kme.issued ++
               List.zipWith (fun id bytes => IssuedKey.mk id caller target bytes) ids keys })

/-- Modelled from the spec: the KME's lookup of one identifier on behalf of the SAE `caller`,
for keys that `source` obtained with get_keys for `caller`. -/
def KME.find_key (kme : KME) (caller source key_id : String) : Option IssuedKey :=
  kme.issued.find? (fun k => k.key_id = key_id ∧ k.master_sae = source ∧ k.slave_sae = caller)

/-- Modelled from the spec: the lookup of a sequence of identifiers, in the caller's order and
all-or-nothing (section 4.4). -/
def KME.find_keys (kme : KME) (caller source : String) : List String → Option (List IssuedKey)
  | [] => some []
  | key_id :: key_ids =>
    match kme.find_key caller source key_id, KME.find_keys kme caller source key_ids with
    | some k, some ks => some (k :: ks)
    | _, _ => none

/-- Modelled from the spec: the get_keys_by_ids operation of section 4.4, missing from the
sources, called by the SAE `caller` for keys issued to `source`.  A `count` different from the
length of `key_ids` is rejected with `CountMismatch` before the KME is contacted; an
identifier the KME cannot locate makes the whole call fail with `UnknownKeyId`; otherwise the
records are returned in the order of `key_ids`. -/
def KME.get_keys_by_ids (kme : KME) (caller source : String) (key_ids : List String)
    (count : Nat) : Except ErrorKind (List KeyRecord) :=
  if count ≠ key_ids.length then .error .CountMismatch
  else
    match kme.find_keys caller source key_ids with
    | none => .error .UnknownKeyId
    | some keys => .ok (keys.map KeyRecord.of_issued)

/-- A KME state for the two SAEs of `config.example.h`: 128 bytes of material for the pair
(`client-1`, `client-2`), four unused identifiers, nothing issued yet. -/
def example_kme : KME where
  pools := [⟨SAE_ID_1, SAE_ID_2, (List.range 128).map (fun i => (7 * i + 3) % 256)⟩]
  fresh_ids := ["0b5e6c3a-01", "0b5e6c3a-02", "0b5e6c3a-03", "0b5e6c3a-04"]
  issued := []

/-- Modelled from the spec: what a caller sees when it borrows from the buffer of a record
(section 4.5, `borrow` "exposes a read-only view" of the bytes). -/
def KeyRecord.borrowed_bytes (r : KeyRecord) : Except ErrorKind (List Nat) :=
  match r.buffer.borrow with
  | .ok (_, view) => .ok view
  | .error e => .error e

/-- Modelled from the spec: the KME states that follow a given one in a run.  Only get_keys
calls, by any SAE, change the state of the KME. -/
inductive KME.Reaches : KME → KME → Prop where
  | refl (kme : KME) : KME.Reaches kme kme
  | step (kme1 kme2 kme3 : KME) (caller target : String) (key_size_bits count : Nat)
      (recs : List KeyRecord) (h : KME.Reaches kme1 kme2)
      (hg : kme2.get_keys caller target key_size_bits count = .ok (recs, kme3)) :
      KME.Reaches kme1 kme3

/-! ## Concrete inputs -/

/-- The answer of the example KME to `get_keys` by `client-1` for `client-2`, 256 bits, three
keys. -/
def example_issue : Except ErrorKind (List KeyRecord × KME) :=
  example_kme.get_keys SAE_ID_1 SAE_ID_2 KEY_SIZE_BITS amount_of_keys

/-- The records of `example_issue`. -/
def example_records : List KeyRecord :=
  match example_issue with
  | .ok (recs, _) => recs
  | .error _ => []

/-- The state of the example KME after `example_issue`. -/
def example_kme_1 : KME :=
  match example_issue with
  | .ok (_, kme1) => kme1
  | .error _ => example_kme

/-- The state of the example KME after one more `get_keys` call, for one key of 128 bits. -/
def example_kme_2 : KME :=
  match example_kme_1.get_keys SAE_ID_1 SAE_ID_2 128 1 with
  | .ok (_, kme2) => kme2
  | .error _ => example_kme_1

/-- The answer of the example KME, in state `example_kme_2`, to `get_keys_by_ids` by
`client-2` for the identifiers of `example_records`. -/
def example_records_2 : List KeyRecord :=
  match example_kme_2.get_keys_by_ids SAE_ID_2 SAE_ID_1
      (example_records.map KeyRecord.key_id) example_records.length with
  | .ok recs => recs
  | .error _ => []

/-- The answer of the example KME, in state `example_kme_1`, to `get_keys_by_ids` by
`client-2` for the third and the first identifier, in that order. -/
def example_records_3_1 : List KeyRecord :=
  match example_kme_1.get_keys_by_ids SAE_ID_2 SAE_ID_1 ["0b5e6c3a-03", "0b5e6c3a-01"] 2 with
  | .ok recs => recs
  | .error _ => []

/-- The `E14_QKD_Key` through which `main` sees a record whose buffer has the given
identity. -/
def E14_QKD_Key.of_record (buffer : Nat) (r : KeyRecord) : E14_QKD_Key :=
  ⟨r.key_id, r.key_size, buffer⟩

/-- The bytes exposed by borrowing from the record in slot `i`. -/
def slot_bytes (recs : List KeyRecord) (i : Nat) : List Nat :=
  match recs[i]? with
  | some r =>
    match r.borrowed_bytes with
    | .ok view => view
    | .error _ => []
  | none => []

/-- The environment of a run of `main` against the example KME: every call succeeds,
identity 1 is handed `example_records` and identity 2 is handed `example_records_2`, in six
distinct buffers. -/
def example_env : Env where
  new_client_1 := .ok 1
  get_status := .ok ⟨SAE_ID_2⟩
  get_keys := .ok (List.zipWith E14_QKD_Key.of_record [11, 12, 13] example_records)
  new_client_2 := .ok 2
  get_keys_by_ids := .ok (List.zipWith E14_QKD_Key.of_record [21, 22, 23] example_records_2)
  key_bytes1 := slot_bytes example_records
  key_bytes2 := slot_bytes example_records_2
  stack_keys1 := fun _ => ⟨"", 0, 0⟩
  stack_keys2 := fun _ => ⟨"", 0, 0⟩

/-- The example environment, except that opening the session of identity 2 fails. -/
def example_env_open_2_fails : Env :=
  { example_env with new_client_2 := .failed "TLS handshake failed" }

/-- The example environment, except that `e14_get_keys_by_ids` fails. -/
def example_env_by_ids_fails : Env :=
  { example_env with get_keys_by_ids := .failed "unknown key id" }

/-- The example environment, except that the last byte of the first key differs between the
two identities. -/
def example_env_keys_differ : Env :=
  { example_env with
    key_bytes2 := fun i =>
      if i = 0 then (slot_bytes example_records_2 0).take 31 ++ [0]
      else slot_bytes example_records_2 i }

theorem check_body_pass (env : Env) (keys1 keys2 : List E14_QKD_Key) (i : Nat)
    (k1 k2 : E14_QKD_Key) (t : List Event)
    (h1 : read_at keys1 i = some k1) (h2 : read_at keys2 i = some k2)
    (h : assertions_hold env k1 k2 i) :
    check_body env keys1 keys2 i t = .ok (t ++ iteration_events k1 k2) := by
  obtain ⟨hu, hs1, hs2, hm⟩ := h
  simp [check_body, h1, h2, hu, hs1, hs2, hm, iteration_events]

theorem check_body_stop (env : Env) (keys1 keys2 : List E14_QKD_Key) (i : Nat)
    (k1 k2 : E14_QKD_Key) (t : List Event)
    (h1 : read_at keys1 i = some k1) (h2 : read_at keys2 i = some k2)
    (h : ¬ assertions_hold env k1 k2 i) :
    ∃ o es, check_body env keys1 keys2 i t = .error ⟨o, t ++ es⟩ ∧ o.aborted ∧
      (es = [] ∨ es = borrow_events k1 k2) ∧
      (∀ line, o = .buffer_overread line → overread_at env keys1 keys2) := by
  unfold assertions_hold at h
  simp only [check_body, h1, h2]
  by_cases hu : k1.uuid = k2.uuid
  · by_cases hs1 : k1.key_size = KEY_SIZE_BYTES
    · by_cases hs2 : k2.key_size = KEY_SIZE_BYTES
      · rcases hm : memcmp (env.key_bytes1 i) (env.key_bytes2 i) KEY_SIZE_BYTES with _ | r
        · exact ⟨.buffer_overread 65, borrow_events k1 k2,
            by simp [hu, hs1, hs2, borrow_events], trivial, Or.inr rfl,
            fun _ _ => ⟨i, k1, k2, h1, h2, hs1, hs2, hm⟩⟩
        · have hr : r ≠ 0 := by
            intro h0; subst h0; exact h ⟨hu, hs1, hs2, hm⟩
          exact ⟨.assert_failed 65, borrow_events k1 k2,
            by simp [hu, hs1, hs2, hr, borrow_events], trivial, Or.inr rfl,
            fun _ h => by cases h⟩
      · exact ⟨.assert_failed 57, [], by simp [hu, hs1, hs2], trivial, Or.inl rfl,
        fun _ h => by cases h⟩
    · exact ⟨.assert_failed 56, [], by simp [hu, hs1], trivial, Or.inl rfl,
        fun _ h => by cases h⟩
  · exact ⟨.assert_failed 55, [], by simp [hu], trivial, Or.inl rfl,
        fun _ h => by cases h⟩

theorem iteration_events_on_key_buffer (k1 k2 : E14_QKD_Key) :
    ∀ ev ∈ iteration_events k1 k2, ev.on_key_buffer := by
  simp [iteration_events, Event.on_key_buffer]

theorem borrow_events_on_key_buffer (k1 k2 : E14_QKD_Key) :
    ∀ ev ∈ borrow_events k1 k2, ev.on_key_buffer := by
  simp [borrow_events, Event.on_key_buffer]

theorem check_loop_cases (env : Env) (a b c d e f : E14_QKD_Key) (t : List Event) :
    (all_assertions_hold env a b c d e f ∧
      for_loop (check_body env [a, b, c] [d, e, f]) 0 amount_of_keys t
        = .ok (t ++ (iteration_events a d ++ iteration_events b e ++ iteration_events c f))) ∨
    (¬ all_assertions_hold env a b c d e f ∧
      ∃ o es, for_loop (check_body env [a, b, c] [d, e, f]) 0 amount_of_keys t
        = .error ⟨o, t ++ es⟩ ∧ o.aborted ∧ (∀ ev ∈ es, ev.on_key_buffer) ∧
        (∀ line, o = .buffer_overread line → overread_at env [a, b, c] [d, e, f])) := by
  have r0 : read_at [a, b, c] 0 = some a := rfl
  have r1 : read_at [a, b, c] 1 = some b := rfl
  have r2 : read_at [a, b, c] 2 = some c := rfl
  have s0 : read_at [d, e, f] 0 = some d := rfl
  have s1 : read_at [d, e, f] 1 = some e := rfl
  have s2 : read_at [d, e, f] 2 = some f := rfl
  unfold all_assertions_hold
  by_cases h0 : assertions_hold env a d 0
  · by_cases h1 : assertions_hold env b e 1
    · by_cases h2 : assertions_hold env c f 2
      · left
        refine ⟨⟨h0, h1, h2⟩, ?_⟩
        simp [for_loop, amount_of_keys, check_body_pass env _ _ _ _ _ _ r0 s0 h0,
          check_body_pass env _ _ _ _ _ _ r1 s1 h1, check_body_pass env _ _ _ _ _ _ r2 s2 h2]
      · right
        refine ⟨fun h => h2 h.2.2, ?_⟩
        obtain ⟨o, es, hb, ho, hes, hov⟩ := check_body_stop env _ _ 2 _ _
          (t ++ iteration_events a d ++ iteration_events b e) r2 s2 h2
        simp only [List.append_assoc] at hb
        refine ⟨o, iteration_events a d ++ iteration_events b e ++ es, ?_, ho, ?_, hov⟩
        · simp [for_loop, amount_of_keys, check_body_pass env _ _ _ _ _ _ r0 s0 h0,
            check_body_pass env _ _ _ _ _ _ r1 s1 h1, hb]
        · intro ev hev
          simp only [List.mem_append] at hev
          rcases hev with (hev | hev) | hev
          · exact iteration_events_on_key_buffer _ _ ev hev
          · exact iteration_events_on_key_buffer _ _ ev hev
          · rcases hes with rfl | rfl
            · simp at hev
            · exact borrow_events_on_key_buffer _ _ ev hev
    · right
      refine ⟨fun h => h1 h.2.1, ?_⟩
      obtain ⟨o, es, hb, ho, hes, hov⟩ := check_body_stop env _ _ 1 _ _
        (t ++ iteration_events a d) r1 s1 h1
      simp only [List.append_assoc] at hb
      refine ⟨o, iteration_events a d ++ es, ?_, ho, ?_, hov⟩
      · simp [for_loop, amount_of_keys, check_body_pass env _ _ _ _ _ _ r0 s0 h0, hb]
      · intro ev hev
        simp only [List.mem_append] at hev
        rcases hev with hev | hev
        · exact iteration_events_on_key_buffer _ _ ev hev
        · rcases hes with rfl | rfl
          · simp at hev
          · exact borrow_events_on_key_buffer _ _ ev hev
  · right
    refine ⟨fun h => h0 h.1, ?_⟩
    obtain ⟨o, es, hb, ho, hes, hov⟩ := check_body_stop env _ _ 0 _ _ t r0 s0 h0
    refine ⟨o, es, ?_, ho, ?_, hov⟩
    · simp [for_loop, amount_of_keys, hb]
    · intro ev hev
      rcases hes with rfl | rfl
      · simp at hev
      · exact borrow_events_on_key_buffer _ _ ev hev

theorem store_keys_declared (contents : Nat → E14_QKD_Key) (recs : List E14_QKD_Key) :
    ∃ a b c, store_keys (declare_array amount_of_keys contents) amount_of_keys recs
      = some [a, b, c] := by
  rcases recs with _ | ⟨x, _ | ⟨y, _ | ⟨z, rest⟩⟩⟩ <;>
    exact ⟨_, _, _, rfl⟩

theorem store_keys_full (contents : Nat → E14_QKD_Key) (recs : List E14_QKD_Key)
    (h : recs.length = amount_of_keys) :
    store_keys (declare_array amount_of_keys contents) amount_of_keys recs = some recs := by
  rcases recs with _ | ⟨x, _ | ⟨y, _ | ⟨z, _ | ⟨w, rest⟩⟩⟩⟩ <;>
    first | rfl | simp [amount_of_keys] at h

theorem print_loop_ok (a b c : E14_QKD_Key) (t : List Event) :
    for_loop (print_body [a, b, c]) 0 amount_of_keys t
      = .ok (t ++ [.printf (a.uuid ++ "\n"), .printf (b.uuid ++ "\n"),
                   .printf (c.uuid ++ "\n")]) := by
  simp [for_loop, amount_of_keys, print_body, read_at]

theorem declare_array_length {α : Type} (n : Nat) (contents : Nat → α) :
    (declare_array n contents).length = n := by
  simp [declare_array]

/-- Every run of `main` follows one of the paths of `MainPath`. -/
theorem main_path (env : Env) : MainPath env (main env) := by
  unfold main
  rcases h1 : env.new_client_1 with c1 | m
  · rcases h2 : env.get_status with st | m
    · rcases h3 : env.get_keys with recs1 | m
      · obtain ⟨a, b, c, hk1⟩ := store_keys_declared env.stack_keys1 recs1
        rcases h4 : env.new_client_2 with c2 | m
        · rcases h5 : env.get_keys_by_ids with recs2 | m
          · obtain ⟨d, e, f, hk2⟩ := store_keys_declared env.stack_keys2 recs2
            simp only [hk1, hk2, print_loop_ok, key_ids_init, read_at, declare_array_length]
            rcases check_loop_cases env a b c d e f (trace_by_ids env c1 st a b c c2) with
              ⟨ha, hl⟩ | ⟨ha, o, es, hl, ho, hes, hov⟩
            · have := MainPath.success c1 st recs1 a b c c2 recs2 d e f h1 h2 h3 hk1 h4 h5 hk2 ha
              simp only [trace_by_ids, trace_open_2, trace_get_keys, trace_status, h1, h2, h3, h4, h5,
                List.append_assoc, List.cons_append, List.nil_append] at hl this
              simpa [hl] using this
            · have := MainPath.aborted c1 st recs1 a b c c2 recs2 d e f o es h1 h2 h3 hk1 h4 h5 hk2
                ha ho hes hov
              simp only [trace_by_ids, trace_open_2, trace_get_keys, trace_status, h1, h2, h3, h4, h5,
                List.append_assoc, List.cons_append, List.nil_append] at hl this
              simpa [hl] using this
          · have := MainPath.by_ids_failed c1 st recs1 a b c c2 m h1 h2 h3 hk1 h4 h5
            simpa [hk1, print_loop_ok, key_ids_init, read_at, declare_array_length, trace_by_ids,
              trace_open_2, trace_get_keys, trace_status, failure_events, h1, h2, h3, h4, h5]
              using this
        · have := MainPath.open_2_failed c1 st recs1 a b c m h1 h2 h3 hk1 h4
          simpa [hk1, print_loop_ok, declare_array_length, trace_open_2, trace_get_keys,
            trace_status, failure_events, h1, h2, h3, h4] using this
      · have := MainPath.get_keys_failed c1 st m h1 h2 h3
        simpa [declare_array_length, trace_get_keys, trace_status, failure_events, h1, h2, h3]
          using this
    · have := MainPath.status_failed c1 m h1 h2
      simpa [trace_status, failure_events, h1, h2] using this
  · have := MainPath.open_1_failed m h1
    simpa [failure_events, h1] using this

/-! ## Session lifecycle -/

theorem identities_differ : CERT_1 ≠ CERT_2 := by
  decide

theorem sessions_run_append (s : Sessions) (t1 t2 : List Event) :
    Sessions.run s (t1 ++ t2) = (Sessions.run s t1).bind (fun s1 => Sessions.run s1 t2) := by
  induction t1 generalizing s with
  | nil => rfl
  | cons e es ih =>
    simp only [List.cons_append, Sessions.run]
    cases s.step e with
    | none => rfl
    | some s1 => exact ih s1

theorem sessions_step_on_key_buffer (s : Sessions) (e : Event) (h : e.on_key_buffer) :
    s.step e = some s := by
  cases e <;> simp_all [Event.on_key_buffer, Sessions.step]

theorem sessions_run_on_key_buffer (s : Sessions) (es : List Event)
    (h : ∀ ev ∈ es, ev.on_key_buffer) : Sessions.run s es = some s := by
  induction es with
  | nil => rfl
  | cons e es ih =>
    simp only [Sessions.run, sessions_step_on_key_buffer s e (h e (List.mem_cons_self _ _))]
    exact ih (fun ev hev => h ev (List.mem_cons_of_mem _ hev))

theorem sessions_step_all (s s1 : Sessions) (e : Event) (h : s.step e = some s1) :
    ∃ r, s1.all = s.all ++ r := by
  rcases s with ⟨live, closed⟩
  cases e with
  | e14_new_etsi014_client host port cert key ca res =>
    cases res with
    | ok c =>
      cases live with
      | some x => simp [Sessions.step] at h
      | none =>
        simp only [Sessions.step, Option.some.injEq] at h
        subst h
        exact ⟨[⟨c, cert, key⟩], by simp [Sessions.all]⟩
    | failed m =>
      simp only [Sessions.step, Option.some.injEq] at h
      subst h
      exact ⟨[], by simp⟩
  | e14_free_etsi014_client c =>
    cases live with
    | none => simp [Sessions.step] at h
    | some x =>
      simp only [Sessions.step] at h
      split_ifs at h
      simp only [Option.some.injEq] at h
      subst h
      exact ⟨[], by simp [Sessions.all]⟩
  | e14_get_status c _ _ =>
    simp only [Sessions.step] at h
    split_ifs at h
    simp only [Option.some.injEq] at h
    subst h
    exact ⟨[], by simp⟩
  | e14_get_keys c _ _ _ _ _ _ _ =>
    simp only [Sessions.step] at h
    split_ifs at h
    simp only [Option.some.injEq] at h
    subst h
    exact ⟨[], by simp⟩
  | e14_get_keys_by_ids c _ _ _ _ _ =>
    simp only [Sessions.step] at h
    split_ifs at h
    simp only [Option.some.injEq] at h
    subst h
    exact ⟨[], by simp⟩
  | e14_unprotect_qkd_key_bytes _ | e14_protect_qkd_key_bytes _ | e14_free_qkd_key_bytes _
  | e14_free_error_str _ | printf _ =>
    simp only [Sessions.step, Option.some.injEq] at h
    subst h
    exact ⟨[], by simp⟩

theorem sessions_run_all (s s1 : Sessions) (t : List Event) (h : Sessions.run s t = some s1) :
    ∃ r, s1.all = s.all ++ r := by
  induction t generalizing s with
  | nil =>
    simp only [Sessions.run, Option.some.injEq] at h
    subst h
    exact ⟨[], by simp⟩
  | cons e es ih =>
    simp only [Sessions.run] at h
    cases hs : s.step e with
    | none => simp [hs] at h
    | some s2 =>
      rw [hs] at h
      obtain ⟨r1, h1⟩ := sessions_step_all s s2 e hs
      obtain ⟨r2, h2⟩ := ih s2 h
      exact ⟨r1 ++ r2, by rw [h2, h1, List.append_assoc]⟩

/-- What the session discipline says at the end of each path of `main`. -/
theorem sessions_of_path (env : Env) (r : Run) (h : MainPath env r) :
    ∃ s, Sessions.run Sessions.init r.trace = some s ∧ s.identities_in_order ∧
      (r.outcome = .returned 0 →
        ∃ c1 c2, s = ⟨none, [⟨c1, CERT_1, KEY_1⟩, ⟨c2, CERT_2, KEY_2⟩]⟩) := by
  cases h with
  | open_1_failed m h1 =>
    refine ⟨Sessions.init, ?_, ⟨_, rfl⟩, ?_⟩
    · simp [h1, failure_events, Sessions.run, Sessions.step]
    · simp
  | status_failed c1 m h1 h2 =>
    refine ⟨⟨some ⟨c1, CERT_1, KEY_1⟩, []⟩, ?_, ⟨[(CERT_2, KEY_2)], rfl⟩, ?_⟩
    · simp [h1, h2, trace_status, failure_events, Sessions.run, Sessions.step, Sessions.init]
    · simp
  | get_keys_failed c1 st m h1 h2 h3 =>
    refine ⟨⟨some ⟨c1, CERT_1, KEY_1⟩, []⟩, ?_, ⟨[(CERT_2, KEY_2)], rfl⟩, ?_⟩
    · simp [h1, h2, h3, trace_get_keys, trace_status, failure_events, Sessions.run,
        Sessions.step, Sessions.init]
    · simp
  | open_2_failed c1 st recs1 a b c m h1 h2 h3 hk1 h4 =>
    refine ⟨⟨none, [⟨c1, CERT_1, KEY_1⟩]⟩, ?_, ⟨[(CERT_2, KEY_2)], rfl⟩, ?_⟩
    · simp [h1, h2, h3, h4, trace_open_2, trace_get_keys, trace_status, failure_events,
        Sessions.run, Sessions.step, Sessions.init]
    · simp
  | by_ids_failed c1 st recs1 a b c c2 m h1 h2 h3 hk1 h4 h5 =>
    refine ⟨⟨some ⟨c2, CERT_2, KEY_2⟩, [⟨c1, CERT_1, KEY_1⟩]⟩, ?_, ⟨[], rfl⟩, ?_⟩
    · simp [h1, h2, h3, h4, h5, trace_by_ids, trace_open_2, trace_get_keys, trace_status,
        failure_events, Sessions.run, Sessions.step, Sessions.init]
    · simp
  | aborted c1 st recs1 a b c c2 recs2 d e f o es h1 h2 h3 hk1 h4 h5 hk2 ha ho hes hov =>
    refine ⟨⟨some ⟨c2, CERT_2, KEY_2⟩, [⟨c1, CERT_1, KEY_1⟩]⟩, ?_, ⟨[], rfl⟩, ?_⟩
    · rw [sessions_run_append]
      have : Sessions.run Sessions.init (trace_by_ids env c1 st a b c c2)
          = some ⟨some ⟨c2, CERT_2, KEY_2⟩, [⟨c1, CERT_1, KEY_1⟩]⟩ := by
        simp [h1, h2, h3, h4, h5, trace_by_ids, trace_open_2, trace_get_keys, trace_status,
          Sessions.run, Sessions.step, Sessions.init]
      rw [this]
      exact sessions_run_on_key_buffer _ es hes
    · intro h0
      cases o <;> simp_all [Outcome.aborted]
  | success c1 st recs1 a b c c2 recs2 d e f h1 h2 h3 hk1 h4 h5 hk2 ha =>
    refine ⟨⟨none, [⟨c1, CERT_1, KEY_1⟩, ⟨c2, CERT_2, KEY_2⟩]⟩, ?_, ⟨[], rfl⟩, ?_⟩
    · simp [h1, h2, h3, h4, h5, trace_by_ids, trace_open_2, trace_get_keys, trace_status,
        iteration_events, Sessions.run, Sessions.step, Sessions.init]
    · intro _
      exact ⟨c1, c2, rfl⟩

theorem identity_2_after_identity_1 (s : Sessions) (x : Session) (hid : s.identities_in_order)
    (hlive : s.live = some x) (hx : x.cert = CERT_2 ∧ x.key = KEY_2) :
    ∃ c1, s.closed = [⟨c1, CERT_1, KEY_1⟩] := by
  obtain ⟨rest, hrest⟩ := hid
  rcases s with ⟨live, closed⟩
  simp only at hlive
  subst hlive
  simp only [Sessions.all, Option.toList, List.map_append, List.map_cons, List.map_nil,
    List.append_assoc, hx.1, hx.2] at hrest
  match closed, hrest with
  | [], h =>
    simp only [List.map_nil, List.nil_append, List.cons_append, List.cons.injEq,
      Prod.mk.injEq] at h
    exact absurd h.1.1.symm identities_differ
  | [y], h =>
    simp only [List.map_cons, List.map_nil, List.cons_append, List.nil_append, List.cons.injEq,
      Prod.mk.injEq] at h
    obtain ⟨⟨hc, hk⟩, -⟩ := h
    rcases y with ⟨c, cert, key⟩
    simp only at hc hk
    subst hc hk
    exact ⟨c, rfl⟩
  | y :: z :: l, h =>
    have := congrArg List.length h
    simp at this

/-- C8.  Session lifecycle of `main`.  For every environment and at every point of the run
(every initial part `pre` of the trace), the calls made so far respect the session
discipline: each of `e14_get_status`, `e14_get_keys`, `e14_get_keys_by_ids` is issued on the
handle of a session that was opened successfully and is not yet closed, no session is closed
twice, a session is opened only when none is open, and the sessions opened so far are, in
order, the one with identity 1 (`CERT_1`, `KEY_1`) and then the one with identity 2
(`CERT_2`, `KEY_2`); whenever the session of identity 2 is open, the session of identity 1
is the one closed session.  When `main` returns 0, exactly these two sessions were opened
and each has been closed once, identity 1 first. -/
theorem main_session_lifecycle (env : Env) :
    (∀ pre post, (main env).trace = pre ++ post →
      ∃ s, Sessions.run Sessions.init pre = some s ∧ s.identities_in_order ∧
        ∀ x, s.live = some x → x.cert = CERT_2 ∧ x.key = KEY_2 →
          ∃ c1, s.closed = [⟨c1, CERT_1, KEY_1⟩]) ∧
    ((main env).outcome = .returned 0 →
      ∃ c1 c2, Sessions.run Sessions.init (main env).trace
        = some ⟨none, [⟨c1, CERT_1, KEY_1⟩, ⟨c2, CERT_2, KEY_2⟩]⟩) := by
  obtain ⟨s, hrun, hid, hret⟩ := sessions_of_path env (main env) (main_path env)
  constructor
  · intro pre post hsplit
    rw [hsplit, sessions_run_append] at hrun
    cases hpre : Sessions.run Sessions.init pre with
    | none => simp [hpre] at hrun
    | some s1 =>
      rw [hpre] at hrun
      have hid1 : s1.identities_in_order := by
        obtain ⟨r, hr⟩ := sessions_run_all s1 s post hrun
        obtain ⟨rest, hrest⟩ := hid
        refine ⟨r.map (fun x => (x.cert, x.key)) ++ rest, ?_⟩
        rw [← hrest, hr, List.map_append, List.append_assoc]
      exact ⟨s1, rfl, hid1, fun x hlive hx => identity_2_after_identity_1 s1 x hid1 hlive hx⟩
  · intro h0
    obtain ⟨c1, c2, hs⟩ := hret h0
    exact ⟨c1, c2, by rw [hrun, hs]⟩

/-! ## Array bounds -/

/-- An element with property `P` that occurs once in a list pins down the split around it. -/
theorem unique_split {α : Type} (P : α → Prop) (T : List α) (e : α) (R : List α)
    (hT : ∀ x ∈ T, ¬ P x) (hR : ∀ x ∈ R, ¬ P x) (pre : List α) (x : α) (post : List α)
    (h : T ++ e :: R = pre ++ x :: post) (hx : P x) : pre = T ∧ x = e ∧ post = R := by
  rw [List.append_eq_append_iff] at h
  rcases h with ⟨a, ha, hb⟩ | ⟨c, hc, hd⟩
  · cases a with
    | nil =>
      simp only [List.nil_append, List.cons.injEq] at hb
      simp only [List.append_nil] at ha
      exact ⟨ha, hb.1.symm, hb.2.symm⟩
    | cons y ys =>
      simp only [List.cons_append, List.cons.injEq] at hb
      exact absurd hx (hR x (by rw [hb.2]; simp))
  · cases c with
    | nil =>
      simp only [List.nil_append, List.cons.injEq] at hd
      simp only [List.append_nil] at hc
      exact ⟨hc.symm, hd.1, hd.2⟩
    | cons y ys =>
      simp only [List.cons_append, List.cons.injEq] at hd
      exact absurd hx (hT x (by rw [hc, hd.1]; simp))

theorem on_key_buffer_failure (ev : Event) (h : ev.on_key_buffer) : ev.failure = none := by
  cases ev <;> simp_all [Event.on_key_buffer, Event.failure]

theorem on_key_buffer_operation (ev : Event) (h : ev.on_key_buffer) : ev.operation = none := by
  cases ev <;> simp_all [Event.on_key_buffer, Event.operation]

/-- A `for_loop` from `i` over `n` iterations runs its body at the indices `i <= j < i + n`
only: two bodies that agree there give the same loop. -/
theorem for_loop_congr {σ ε : Type} (body1 body2 : Nat → σ → Except ε σ) (n : Nat) :
    ∀ (i : Nat) (s : σ), (∀ j, i ≤ j → j < i + n → body1 j = body2 j) →
      for_loop body1 i n s = for_loop body2 i n s := by
  induction n with
  | zero => intro i s _; rfl
  | succ m ih =>
    intro i s h
    simp only [for_loop]
    rw [h i (le_refl _) (by omega)]
    cases body2 i s with
    | error e => rfl
    | ok s1 => exact ih (i + 1) s1 (fun j h1 h2 => h j (by omega) (by omega))

/-- C9.  Array accesses of `main` are in bounds.  For every environment the run never ends
in the out-of-bounds outcome: the reads `keys1[i]`, `keys2[i]` of the two loops
(`0 <= i < amount_of_keys`), the reads `keys1[0]`, `keys1[1]`, `keys1[2]` of the `key_ids`
initialiser and the library's writes into the output arrays all hit existing elements.  The
arrays `keys1` and `keys2` have exactly `amount_of_keys = 3` elements, and every
`e14_get_keys` and `e14_get_keys_by_ids` call passes an amount that does not exceed the
length of the output array handed to it (both are `amount_of_keys`); `key_ids` has
`amount_of_keys` elements as well.  The loops run their bodies at indices below
`amount_of_keys` only, and the initialiser depends on the first three elements of `keys1`
only.  Moreover `memcmp` stays inside the two borrowed views whenever each view holds at
least the `key_size` bytes of its record. -/
theorem main_in_bounds (env : Env) :
    (∀ line, (main env).outcome ≠ .out_of_bounds line) ∧
    amount_of_keys = 3 ∧
    (declare_array amount_of_keys env.stack_keys1).length = amount_of_keys ∧
    (declare_array amount_of_keys env.stack_keys2).length = amount_of_keys ∧
    (∀ recs keys1,
      store_keys (declare_array amount_of_keys env.stack_keys1) amount_of_keys recs = some keys1 →
        keys1.length = amount_of_keys) ∧
    (∀ recs keys2,
      store_keys (declare_array amount_of_keys env.stack_keys2) amount_of_keys recs = some keys2 →
        keys2.length = amount_of_keys) ∧
    (∀ c bits target extra extra_len amount out_len res,
      Event.e14_get_keys c bits target extra extra_len amount out_len res ∈ (main env).trace →
        amount ≤ out_len ∧ out_len = amount_of_keys) ∧
    (∀ c source key_ids amount out_len res,
      Event.e14_get_keys_by_ids c source key_ids amount out_len res ∈ (main env).trace →
        amount ≤ out_len ∧ out_len = amount_of_keys ∧ key_ids.length = amount_of_keys) ∧
    (∀ (body1 body2 : Nat → List Event → Except Run (List Event)) (t : List Event),
      (∀ i, i < amount_of_keys → body1 i = body2 i) →
        for_loop body1 0 amount_of_keys t = for_loop body2 0 amount_of_keys t) ∧
    (∀ keys1 : List E14_QKD_Key, key_ids_init keys1 = key_ids_init (keys1.take 3)) ∧
    (∀ recs1 recs2 keys1 keys2,
      env.get_keys = .ok recs1 → env.get_keys_by_ids = .ok recs2 →
      store_keys (declare_array amount_of_keys env.stack_keys1) amount_of_keys recs1
        = some keys1 →
      store_keys (declare_array amount_of_keys env.stack_keys2) amount_of_keys recs2
        = some keys2 →
      (∀ (i : Nat) (k1 k2 : E14_QKD_Key), keys1[i]? = some k1 → keys2[i]? = some k2 →
        k1.key_size ≤ (env.key_bytes1 i).length ∧ k2.key_size ≤ (env.key_bytes2 i).length) →
      ∀ line, (main env).outcome ≠ .buffer_overread line) := by
  have hstore : ∀ (contents : Nat → E14_QKD_Key) recs keys,
      store_keys (declare_array amount_of_keys contents) amount_of_keys recs = some keys →
        keys.length = amount_of_keys := by
    intro contents recs keys h
    obtain ⟨a, b, c, habc⟩ := store_keys_declared contents recs
    rw [habc] at h
    simp only [Option.some.injEq] at h
    subst h
    rfl
  refine ⟨?_, rfl, declare_array_length _ _, declare_array_length _ _,
    hstore env.stack_keys1, hstore env.stack_keys2, ?_, ?_, ?_, ?_, ?_⟩
  · intro line
    have hp := main_path env
    generalize main env = r at hp
    cases hp with
    | aborted c1 st recs1 a b c c2 recs2 d e f o es h1 h2 h3 hk1 h4 h5 hk2 ha ho hes hov =>
      intro h
      simp only at h
      subst h
      exact ho
    | _ => simp
  · intro cl bits target extra extra_len amount out_len res hmem
    have hp := main_path env
    generalize main env = r at hp hmem
    cases hp with
    | aborted c1 st recs1 a b c c2 recs2 d e f o es h1 h2 h3 hk1 h4 h5 hk2 ha ho hes hov =>
      simp only [List.mem_append] at hmem
      rcases hmem with hmem | hmem
      · simp [trace_by_ids, trace_open_2, trace_get_keys, trace_status] at hmem
        omega
      · exact absurd (hes _ hmem) (by simp [Event.on_key_buffer])
    | _ =>
      simp [trace_by_ids, trace_open_2, trace_get_keys, trace_status, failure_events,
        iteration_events] at hmem
      try omega
  · intro cl source key_ids amount out_len res hmem
    have hp := main_path env
    generalize main env = r at hp hmem
    cases hp with
    | aborted c1 st recs1 a b c c2 recs2 d e f o es h1 h2 h3 hk1 h4 h5 hk2 ha ho hes hov =>
      simp only [List.mem_append] at hmem
      rcases hmem with hmem | hmem
      · simp [trace_by_ids, trace_open_2, trace_get_keys, trace_status] at hmem
        obtain ⟨-, -, hk, ha, ho, -⟩ := hmem
        subst hk ha ho
        exact ⟨le_refl _, rfl, rfl⟩
      · exact absurd (hes _ hmem) (by simp [Event.on_key_buffer])
    | _ =>
      simp [trace_by_ids, trace_open_2, trace_get_keys, trace_status, failure_events,
        iteration_events] at hmem
      try (obtain ⟨-, -, hk, ha, ho, -⟩ := hmem; subst hk ha ho; exact ⟨le_refl _, rfl, rfl⟩)
  · intro body1 body2 t h
    exact for_loop_congr body1 body2 amount_of_keys 0 t (fun j _ hj => h j (by omega))
  · intro keys1
    rcases keys1 with _ | ⟨x, _ | ⟨y, _ | ⟨z, rest⟩⟩⟩ <;> simp [key_ids_init, read_at]
  · intro recs1 recs2 keys1 keys2 g3 g5 gk1 gk2 hview line
    have hp := main_path env
    generalize main env = r at hp
    cases hp with
    | aborted c1 st r1 a b c c2 r2 d e f o es h1 h2 h3 hk1 h4 h5 hk2 ha ho hes hov =>
      intro h
      simp only at h
      obtain ⟨i, k1, k2, hr1, hr2, hs1, hs2, hm⟩ := hov line h
      rw [g3] at h3
      rw [g5] at h5
      cases h3
      cases h5
      rw [gk1] at hk1
      rw [gk2] at hk2
      cases hk1
      cases hk2
      obtain ⟨hl1, hl2⟩ := hview i k1 k2 hr1 hr2
      rw [hs1] at hl1
      rw [hs2] at hl2
      simp [memcmp, hl1, hl2] at hm
    | _ => simp

/-! ## Fail-fast error handling -/

theorem all_succeed_intro (env : Env) (c1 : Nat) (st : E14_KME_Status)
    (recs1 : List E14_QKD_Key) (c2 : Nat) (recs2 : List E14_QKD_Key)
    (h1 : env.new_client_1 = .ok c1) (h2 : env.get_status = .ok st)
    (h3 : env.get_keys = .ok recs1) (h4 : env.new_client_2 = .ok c2)
    (h5 : env.get_keys_by_ids = .ok recs2) : env.all_succeed :=
  ⟨⟨c1, h1⟩, ⟨st, h2⟩, ⟨recs1, h3⟩, ⟨c2, h4⟩, ⟨recs2, h5⟩⟩

/-- A trace that ends with a failed call and its error branch is fail-fast. -/
theorem fail_fast_trace (T : List Event) (e : Event) (text m : String)
    (hT : ∀ x ∈ T, x.failure = none) (he : e.failure = some m)
    (pre : List Event) (x : Event) (post : List Event) (m1 : String)
    (h : T ++ e :: failure_events text m = pre ++ x :: post) (hx : x.failure = some m1) :
    (∀ y ∈ pre, y.failure = none) ∧ ∃ text1, post = [.printf text1, .e14_free_error_str m1] := by
  obtain ⟨hpre, hxe, hpost⟩ := unique_split (fun y : Event => y.failure ≠ none) T e
    (failure_events text m) (by simpa using hT) (by simp [failure_events, Event.failure])
    pre x post h (by simp [hx])
  subst hpre hxe hpost
  rw [he] at hx
  simp only [Option.some.injEq] at hx
  subst hx
  exact ⟨hT, _, rfl⟩

/-- A trace without a failed call is fail-fast. -/
theorem fail_fast_none (T : List Event) (hT : ∀ x ∈ T, x.failure = none)
    (pre : List Event) (x : Event) (post : List Event) (m1 : String)
    (h : T = pre ++ x :: post) (hx : x.failure = some m1) :
    (∀ y ∈ pre, y.failure = none) ∧ ∃ text1, post = [.printf text1, .e14_free_error_str m1] := by
  have := hT x (by rw [h]; simp)
  rw [hx] at this
  cases this

theorem count_frees_on_key_buffer (es : List Event) (h : ∀ ev ∈ es, ev.on_key_buffer) :
    es.countP Event.frees_error_str = 0 := by
  rw [List.countP_eq_zero]
  intro ev hev
  have := h ev hev
  cases ev <;> simp_all [Event.on_key_buffer, Event.frees_error_str]

theorem filterMap_operation_on_key_buffer (es : List Event) (h : ∀ ev ∈ es, ev.on_key_buffer) :
    es.filterMap Event.operation = [] := by
  rw [List.filterMap_eq_nil_iff]
  intro ev hev
  exact on_key_buffer_operation ev (h ev hev)

/-- What fail-fast error handling says on each path of `main`. -/
theorem fail_fast_of_path (env : Env) (r : Run) (h : MainPath env r) :
    (r.outcome = .returned 0 ↔ env.all_succeed ∧ env.assertions_hold) ∧
    (r.outcome = .returned 1 ↔ ¬ env.all_succeed) ∧
    (r.outcome.aborted ↔ env.all_succeed ∧ ¬ env.assertions_hold) ∧
    (∀ pre e post m, r.trace = pre ++ e :: post → e.failure = some m →
      (∀ x ∈ pre, x.failure = none) ∧ ∃ text, post = [.printf text, .e14_free_error_str m]) ∧
    (env.all_succeed → r.trace.countP Event.frees_error_str = 0) ∧
    (¬ env.all_succeed → r.trace.countP Event.frees_error_str = 1) ∧
    (r.trace.filterMap Event.operation).Nodup := by
  cases h with
  | open_1_failed m h1 =>
    have hns : ¬ env.all_succeed := by
      rintro ⟨⟨c, hc⟩, -⟩
      simp [h1] at hc
    refine ⟨by simp [hns], by simp [hns], by simp [hns, Outcome.aborted], ?_,
      fun h => absurd h hns, ?_, ?_⟩
    · intro pre e post m1 hsplit he
      exact fail_fast_trace [] _ _ m (by simp) (by simp [h1, Event.failure]) pre e post m1
        hsplit he
    · intro _
      simp [failure_events, h1, Event.frees_error_str]
    · simp [failure_events, Event.operation]
  | status_failed c1 m h1 h2 =>
    have hns : ¬ env.all_succeed := by
      rintro ⟨-, ⟨c, hc⟩, -⟩
      simp [h2] at hc
    refine ⟨by simp [hns], by simp [hns], by simp [hns, Outcome.aborted], ?_,
      fun h => absurd h hns, ?_, ?_⟩
    · intro pre e post m1 hsplit he
      exact fail_fast_trace
        [Event.e14_new_etsi014_client HOST PORT CERT_1 KEY_1 SERVER_CA env.new_client_1] _ _ m
        (by simp [h1, Event.failure]) (by simp [h2, Event.failure]) pre e post m1 hsplit he
    · intro _
      simp [trace_status, failure_events, h1, h2, Event.frees_error_str]
    · simp [trace_status, failure_events, Event.operation]
  | get_keys_failed c1 st m h1 h2 h3 =>
    have hns : ¬ env.all_succeed := by
      rintro ⟨-, -, ⟨c, hc⟩, -⟩
      simp [h3] at hc
    refine ⟨by simp [hns], by simp [hns], by simp [hns, Outcome.aborted], ?_,
      fun h => absurd h hns, ?_, ?_⟩
    · intro pre e post m1 hsplit he
      exact fail_fast_trace
        (trace_status env c1 ++ [Event.printf ("target_sae_id: " ++ st.target_sae_id ++ "\n")])
        (Event.e14_get_keys c1 KEY_SIZE_BITS SAE_ID_2 none 0 amount_of_keys amount_of_keys env.get_keys)
        _ m (by simp [trace_status, h1, h2, Event.failure]) (by simp [h3, Event.failure])
        pre e post m1 (by simpa [trace_get_keys] using hsplit) he
    · intro _
      simp [trace_get_keys, trace_status, failure_events, h1, h2, h3, Event.frees_error_str]
    · simp [trace_get_keys, trace_status, failure_events, Event.operation]
  | open_2_failed c1 st recs1 a b c m h1 h2 h3 hk1 h4 =>
    have hns : ¬ env.all_succeed := by
      rintro ⟨-, -, -, ⟨c, hc⟩, -⟩
      simp [h4] at hc
    refine ⟨by simp [hns], by simp [hns], by simp [hns, Outcome.aborted], ?_,
      fun h => absurd h hns, ?_, ?_⟩
    · intro pre e post m1 hsplit he
      exact fail_fast_trace
        (trace_get_keys env c1 st ++
          [Event.printf (a.uuid ++ "\n"), .printf (b.uuid ++ "\n"), .printf (c.uuid ++ "\n"),
           .e14_free_etsi014_client c1])
        (Event.e14_new_etsi014_client HOST PORT CERT_2 KEY_2 SERVER_CA env.new_client_2)
        _ m (by simp [trace_get_keys, trace_status, h1, h2, h3, Event.failure])
        (by simp [h4, Event.failure])
        pre e post m1 (by simpa [trace_open_2] using hsplit) he
    · intro _
      simp [trace_open_2, trace_get_keys, trace_status, failure_events, h1, h2, h3, h4,
        Event.frees_error_str]
    · simp [trace_open_2, trace_get_keys, trace_status, failure_events, Event.operation,
        identities_differ]
  | by_ids_failed c1 st recs1 a b c c2 m h1 h2 h3 hk1 h4 h5 =>
    have hns : ¬ env.all_succeed := by
      rintro ⟨-, -, -, -, ⟨c, hc⟩⟩
      simp [h5] at hc
    refine ⟨by simp [hns], by simp [hns], by simp [hns, Outcome.aborted], ?_,
      fun h => absurd h hns, ?_, ?_⟩
    · intro pre e post m1 hsplit he
      exact fail_fast_trace (trace_open_2 env c1 st a b c)
        (Event.e14_get_keys_by_ids c2 SAE_ID_1 [a.uuid, b.uuid, c.uuid] amount_of_keys
          amount_of_keys env.get_keys_by_ids) _ m
        (by simp [trace_open_2, trace_get_keys, trace_status, h1, h2, h3, h4, Event.failure])
        (by simp [h5, Event.failure])
        pre e post m1 (by simpa [trace_by_ids] using hsplit) he
    · intro _
      simp [trace_by_ids, trace_open_2, trace_get_keys, trace_status, failure_events,
        h1, h2, h3, h4, h5, Event.frees_error_str]
    · simp [trace_by_ids, trace_open_2, trace_get_keys, trace_status, failure_events,
        Event.operation, identities_differ]
  | aborted c1 st recs1 a b c c2 recs2 d e f o es h1 h2 h3 hk1 h4 h5 hk2 ha ho hes hov =>
    have hs : env.all_succeed := all_succeed_intro env c1 st recs1 c2 recs2 h1 h2 h3 h4 h5
    have hna : ¬ env.assertions_hold := by
      rintro ⟨r1, r2, a1, b1, c1, d1, e1, f1, hg1, hg2, hs1, hs2, hall⟩
      rw [h3] at hg1
      rw [h5] at hg2
      cases hg1
      cases hg2
      rw [hk1] at hs1
      rw [hk2] at hs2
      cases hs1
      cases hs2
      exact ha hall
    have hfail : ∀ x ∈ trace_by_ids env c1 st a b c c2 ++ es, x.failure = none := by
      intro x hx
      rcases List.mem_append.1 hx with hx | hx
      · simp [trace_by_ids, trace_open_2, trace_get_keys, trace_status, h1, h2, h3, h4, h5] at hx
        rcases hx with rfl | rfl | rfl | rfl | rfl | rfl | rfl | rfl | rfl | rfl <;> rfl
      · exact on_key_buffer_failure x (hes x hx)
    refine ⟨?_, ?_, ⟨fun _ => ⟨hs, hna⟩, fun _ => ho⟩, ?_, ?_, fun h => absurd hs h, ?_⟩
    · constructor
      · intro h0
        cases o <;> simp_all [Outcome.aborted]
      · intro h0
        exact absurd h0.2 hna
    · constructor
      · intro h0
        cases o <;> simp_all [Outcome.aborted]
      · intro h0
        exact absurd hs h0
    · intro pre x post m1 hsplit hx
      exact fail_fast_none _ hfail pre x post m1 hsplit hx
    · intro _
      simp only [List.countP_append, count_frees_on_key_buffer es hes]
      simp [trace_by_ids, trace_open_2, trace_get_keys, trace_status, Event.frees_error_str]
    · simp only [List.filterMap_append, filterMap_operation_on_key_buffer es hes]
      simp [trace_by_ids, trace_open_2, trace_get_keys, trace_status, Event.operation,
        identities_differ]
  | success c1 st recs1 a b c c2 recs2 d e f h1 h2 h3 hk1 h4 h5 hk2 ha =>
    have hs : env.all_succeed := all_succeed_intro env c1 st recs1 c2 recs2 h1 h2 h3 h4 h5
    have hah : env.assertions_hold := ⟨recs1, recs2, a, b, c, d, e, f, h3, h5, hk1, hk2, ha⟩
    have hfail : ∀ x ∈ trace_by_ids env c1 st a b c c2 ++
        (iteration_events a d ++ iteration_events b e ++ iteration_events c f) ++
        [Event.e14_free_etsi014_client c2], x.failure = none := by
      intro x hx
      simp [trace_by_ids, trace_open_2, trace_get_keys, trace_status, iteration_events,
        h1, h2, h3, h4, h5] at hx
      rcases hx with hx | hx | hx | hx | hx | hx | hx | hx | hx | hx | hx | hx | hx | hx |
        hx | hx | hx | hx | hx | hx | hx | hx | hx | hx | hx | hx | hx | hx | hx <;>
      subst hx <;> rfl
    refine ⟨by simp [hs, hah], by simp [hs], by simp [hah, Outcome.aborted], ?_, ?_,
      fun h => absurd hs h, ?_⟩
    · intro pre x post m1 hsplit hx
      exact fail_fast_none _ hfail pre x post m1 hsplit hx
    · intro _
      simp [trace_by_ids, trace_open_2, trace_get_keys, trace_status, iteration_events,
        Event.frees_error_str]
    · simp [trace_by_ids, trace_open_2, trace_get_keys, trace_status, iteration_events,
        Event.operation, identities_differ]


/-- C6, as amended.  Errors are surfaced fail-fast, without retry.  With each of the five
fallible calls (open as identity 1, get_status, get_keys, open as identity 2,
get_keys_by_ids) answered by success or by an error with a message: `main` returns 0 exactly
when all five succeed and the assertions hold; it returns 1 exactly when one of the five
fails; and when all five succeed and an assertion fails it returns nothing, the run ends in
`abort()`.  Whenever a call fails, no call before it had failed, and what follows it is
exactly one `printf` and one `e14_free_error_str` of that call's message: no other library
call follows, in particular none that uses or closes the client handle and no operation.
The error string is freed once on a failing run and never otherwise, and no operation is
invoked twice. -/
theorem main_fail_fast (env : Env) :
    ((main env).outcome = .returned 0 ↔ env.all_succeed ∧ env.assertions_hold) ∧
    ((main env).outcome = .returned 1 ↔ ¬ env.all_succeed) ∧
    ((main env).outcome.aborted ↔ env.all_succeed ∧ ¬ env.assertions_hold) ∧
    (∀ pre e post m, (main env).trace = pre ++ e :: post → e.failure = some m →
      (∀ x ∈ pre, x.failure = none) ∧
      (∃ text, post = [.printf text, .e14_free_error_str m]) ∧
      (∀ x ∈ post, x.is_library_call → x = .e14_free_error_str m) ∧
      (∀ x ∈ post, ¬ x.uses_client) ∧ (∀ x ∈ post, x.operation = none)) ∧
    (env.all_succeed → (main env).trace.countP Event.frees_error_str = 0) ∧
    (¬ env.all_succeed → (main env).trace.countP Event.frees_error_str = 1) ∧
    ((main env).trace.filterMap Event.operation).Nodup := by
  obtain ⟨h0, h1, hab, hff, hc0, hc1, hnd⟩ :=
    fail_fast_of_path env (main env) (main_path env)
  refine ⟨h0, h1, hab, ?_, hc0, hc1, hnd⟩
  intro pre e post m hsplit he
  obtain ⟨hpre, text, hpost⟩ := hff pre e post m hsplit he
  subst hpost
  refine ⟨hpre, ⟨text, rfl⟩, ?_, ?_, ?_⟩
  · simp [Event.is_library_call]
  · simp [Event.uses_client]
  · simp [Event.operation]

/-! ## Key buffer lifecycle -/

theorem buffer_states_skip (buf : Nat) (st : BufferState) (t1 t2 : List Event)
    (h : ∀ ev ∈ t1, ev.buffer_op buf = none) :
    buffer_states buf st (t1 ++ t2) = buffer_states buf st t2 := by
  induction t1 with
  | nil => rfl
  | cons e es ih =>
    simp only [List.cons_append, buffer_states, h e (List.mem_cons_self _ _)]
    exact ih (fun ev hev => h ev (List.mem_cons_of_mem _ hev))

theorem trace_by_ids_buffer_op (env : Env) (c1 : Nat) (st : E14_KME_Status)
    (a b c : E14_QKD_Key) (c2 : Nat) (buf : Nat) :
    ∀ ev ∈ trace_by_ids env c1 st a b c c2, ev.buffer_op buf = none := by
  intro ev hev
  simp [trace_by_ids, trace_open_2, trace_get_keys, trace_status] at hev
  rcases hev with rfl | rfl | rfl | rfl | rfl | rfl | rfl | rfl | rfl | rfl <;> rfl

/-- C4.  SecureKeyBuffer lifecycle in the example.  Let `e14_get_keys` and
`e14_get_keys_by_ids` each return `amount_of_keys` records whose `2 * amount_of_keys`
buffers are pairwise distinct.  On the success path of `main` (return 0) each of these
buffers goes through exactly the states Protected, Borrowed, Protected, Released: it is
borrowed once, the borrow is returned before the release, it never has two outstanding
borrows, it is not released while borrowed, and nothing is done with it after its
release (any such call would make the lifecycle `none` or longer). -/
theorem main_buffer_lifecycle (env : Env) (recs1 recs2 : List E14_QKD_Key)
    (h3 : env.get_keys = .ok recs1) (h5 : env.get_keys_by_ids = .ok recs2)
    (hl1 : recs1.length = amount_of_keys) (hl2 : recs2.length = amount_of_keys)
    (hnd : ((recs1 ++ recs2).map E14_QKD_Key.key_bytes_protected).Nodup)
    (hret : (main env).outcome = .returned 0) :
    (recs1 ++ recs2).length = 2 * amount_of_keys ∧
    ∀ k ∈ recs1 ++ recs2,
      buffer_lifecycle k.key_bytes_protected (main env).trace
        = some [.Protected, .Borrowed, .Protected, .Released] := by
  refine ⟨by simp [hl1, hl2, two_mul], ?_⟩
  have hp := main_path env
  generalize main env = r at hp hret
  cases hp with
  | success c1 st r1 a b c c2 r2 d e f g1 g2 g3 hk1 g4 g5 hk2 ha =>
    rw [h3] at g3
    rw [h5] at g5
    cases g3
    cases g5
    rw [store_keys_full _ _ hl1] at hk1
    rw [store_keys_full _ _ hl2] at hk2
    cases hk1
    cases hk2
    simp only [List.cons_append, List.nil_append, List.map_cons, List.map_nil, List.nodup_cons,
      List.mem_cons, List.mem_singleton, not_or, List.not_mem_nil, not_false_eq_true,
      List.nodup_nil, and_true] at hnd
    obtain ⟨⟨hab, hac, had, hae, haf⟩, ⟨hbc, hbd, hbe, hbf⟩, ⟨hcd, hce, hcf⟩, ⟨hde, hdf⟩, hef⟩ := hnd
    intro k hk
    simp only [buffer_lifecycle, List.append_assoc]
    rw [buffer_states_skip _ _ _ _ (trace_by_ids_buffer_op env c1 st a b c c2 _)]
    simp only [List.cons_append, List.nil_append, List.mem_cons, List.mem_singleton,
      List.not_mem_nil, or_false] at hk
    rcases hk with rfl | rfl | rfl | rfl | rfl | rfl <;>
      simp [iteration_events, buffer_states, Event.buffer_op, BufferState.apply, *, Ne.symm hab,
        Ne.symm hac, Ne.symm had, Ne.symm hae, Ne.symm haf, Ne.symm hbc, Ne.symm hbd, Ne.symm hbe,
        Ne.symm hbf, Ne.symm hcd, Ne.symm hce, Ne.symm hcf, Ne.symm hde, Ne.symm hdf, Ne.symm hef]
  | aborted c1 st r1 a b c c2 r2 d e f o es g1 g2 g3 hk1 g4 g5 hk2 ha ho hes hov =>
    simp only at hret
    subst hret
    exact absurd ho (by simp [Outcome.aborted])
  | _ => simp at hret


/-! ## The get_keys_by_ids request -/

/-- A zero result of the scan means the first `n` bytes agree. -/
theorem memcmp_scan_zero (s1 s2 : List Nat) (n : Nat) (h1 : n ≤ s1.length) (h2 : n ≤ s2.length)
    (h : memcmp_scan s1 s2 n = 0) : s1.take n = s2.take n := by
  induction n generalizing s1 s2 with
  | zero => simp
  | succ m ih =>
    cases s1 with
    | nil => simp at h1
    | cons a t1 =>
      cases s2 with
      | nil => simp at h2
      | cons b t2 =>
        simp only [List.length_cons, Nat.add_le_add_iff_right] at h1 h2
        by_cases hab : a = b
        · subst hab
          simp only [memcmp_scan, if_true] at h
          simp [ih t1 t2 h1 h2 h]
        · simp only [memcmp_scan, hab, if_false] at h
          omega

/-- What the assertions of one iteration establish. -/
theorem assertions_hold_agree (env : Env) (k1 k2 : E14_QKD_Key) (i : Nat)
    (h : assertions_hold env k1 k2 i) :
    k1.uuid = k2.uuid ∧ k1.key_size = KEY_SIZE_BYTES ∧ k2.key_size = KEY_SIZE_BYTES ∧
    8 * k1.key_size = KEY_SIZE_BITS ∧
    (env.key_bytes1 i).take KEY_SIZE_BYTES = (env.key_bytes2 i).take KEY_SIZE_BYTES ∧
    KEY_SIZE_BYTES ≤ (env.key_bytes1 i).length ∧ KEY_SIZE_BYTES ≤ (env.key_bytes2 i).length := by
  obtain ⟨hu, hs1, hs2, hm⟩ := h
  refine ⟨hu, hs1, hs2, by rw [hs1]; rfl, ?_⟩
  unfold memcmp at hm
  split_ifs at hm with hlen
  simp only [Option.some.injEq] at hm
  exact ⟨memcmp_scan_zero _ _ _ hlen.1 hlen.2 hm, hlen.1, hlen.2⟩

/-- The checks of the example.  When `main` returns 0, the arrays `keys1` and `keys2`, as the
two key requests left them, agree position by position: the same identifier, the size
`KEY_SIZE_BYTES` on both sides, `8 * key_size = KEY_SIZE_BITS`, and the same
`KEY_SIZE_BYTES` key bytes in the two borrowed views. -/
theorem main_success_keys_agree (env : Env) (h : (main env).outcome = .returned 0) :
    ∃ recs1 recs2 keys1 keys2,
      env.get_keys = .ok recs1 ∧ env.get_keys_by_ids = .ok recs2 ∧
      store_keys (declare_array amount_of_keys env.stack_keys1) amount_of_keys recs1
        = some keys1 ∧
      store_keys (declare_array amount_of_keys env.stack_keys2) amount_of_keys recs2
        = some keys2 ∧
      ∀ (i : Nat) (k1 k2 : E14_QKD_Key), keys1[i]? = some k1 → keys2[i]? = some k2 →
        k1.uuid = k2.uuid ∧ k1.key_size = KEY_SIZE_BYTES ∧ k2.key_size = KEY_SIZE_BYTES ∧
        8 * k1.key_size = KEY_SIZE_BITS ∧
        (env.key_bytes1 i).take KEY_SIZE_BYTES = (env.key_bytes2 i).take KEY_SIZE_BYTES ∧
        KEY_SIZE_BYTES ≤ (env.key_bytes1 i).length ∧
        KEY_SIZE_BYTES ≤ (env.key_bytes2 i).length := by
  obtain ⟨-, recs1, recs2, a, b, c, d, e, f, h3, h5, hk1, hk2, ha0, ha1, ha2⟩ :=
    ((fail_fast_of_path env (main env) (main_path env)).1).1 h
  refine ⟨recs1, recs2, [a, b, c], [d, e, f], h3, h5, hk1, hk2, ?_⟩
  intro i k1 k2 hi1 hi2
  match i with
  | 0 =>
    simp only [List.getElem?_cons_zero, Option.some.injEq] at hi1 hi2
    subst hi1 hi2
    exact assertions_hold_agree env _ _ 0 ha0
  | 1 =>
    simp only [List.getElem?_cons_succ, List.getElem?_cons_zero, Option.some.injEq] at hi1 hi2
    subst hi1 hi2
    exact assertions_hold_agree env _ _ 1 ha1
  | 2 =>
    simp only [List.getElem?_cons_succ, List.getElem?_cons_zero, Option.some.injEq] at hi1 hi2
    subst hi1 hi2
    exact assertions_hold_agree env _ _ 2 ha2
  | n + 3 => simp at hi1


/-! ## The modelled library: round trip, order, key size -/

theorem cut_keys_length (key_size count : Nat) (material : List Nat) :
    (cut_keys key_size count material).length = count := by
  induction count generalizing material with
  | zero => rfl
  | succ n ih => simp [cut_keys, ih]

theorem cut_keys_sizes (key_size count : Nat) (material : List Nat)
    (h : count * key_size ≤ material.length) :
    ∀ c ∈ cut_keys key_size count material, c.length = key_size := by
  induction count generalizing material with
  | zero => simp [cut_keys]
  | succ n ih =>
    have h1 : key_size ≤ material.length := by
      have : key_size ≤ (n + 1) * key_size := Nat.le_mul_of_pos_left _ (Nat.succ_pos n)
      omega
    have h2 : n * key_size ≤ (material.drop key_size).length := by
      rw [List.length_drop, Nat.succ_mul] at *
      omega
    intro c hc
    simp only [cut_keys, List.mem_cons] at hc
    rcases hc with rfl | hc
    · simp [List.length_take, h1]
    · exact ih _ h2 c hc

/-- What a successful get_keys call did. -/
theorem get_keys_ok (kme kme1 : KME) (caller target : String) (bits count : Nat)
    (recs : List KeyRecord) (h : kme.get_keys caller target bits count = .ok (recs, kme1)) :
    0 < bits ∧ bits % 8 = 0 ∧
    ∃ n keys, n ≤ count ∧ n ≤ kme.fresh_ids.length ∧ keys.length = n ∧
      (∀ c ∈ keys, c.length = bits / 8) ∧
      recs = List.zipWith (KeyRecord.of_request (bits / 8)) (kme.fresh_ids.take n) keys ∧
      kme1.issued = kme.issued ++
        List.zipWith (fun id bytes => IssuedKey.mk id caller target bytes)
          (kme.fresh_ids.take n) keys ∧
      kme1.fresh_ids = kme.fresh_ids.drop n := by
  simp only [KME.get_keys] at h
  split at h
  · cases h
  rename_i h1
  split at h
  · cases h
  simp only [Except.ok.injEq, Prod.mk.injEq] at h
  obtain ⟨hrecs, hkme⟩ := h
  have hpos : 0 < bits := by omega
  have hmod : bits % 8 = 0 := by omega
  refine ⟨hpos, hmod, _, _, Nat.min_le_left _ _, ?_, cut_keys_length _ _ _, ?_, hrecs.symm, ?_, ?_⟩
  · exact le_trans (Nat.min_le_right _ _) (Nat.min_le_right _ _)
  · apply cut_keys_sizes
    have hle : min count (min ((kme.material caller target).length / (bits / 8))
        kme.fresh_ids.length) ≤ (kme.material caller target).length / (bits / 8) :=
      le_trans (Nat.min_le_right _ _) (Nat.min_le_left _ _)
    calc _ ≤ (kme.material caller target).length / (bits / 8) * (bits / 8) :=
          Nat.mul_le_mul_right _ hle
      _ ≤ _ := Nat.div_mul_le_self _ _
  · rw [← hkme]
  · rw [← hkme]

theorem issued_ids_zipWith (caller target : String) (ids : List String) (keys : List (List Nat))
    (h : ids.length = keys.length) :
    (List.zipWith (fun id bytes => IssuedKey.mk id caller target bytes) ids keys).map
      IssuedKey.key_id = ids := by
  induction ids generalizing keys with
  | nil => simp
  | cons i is ih =>
    cases keys with
    | nil => simp at h
    | cons b bs =>
      simp only [List.length_cons, Nat.add_right_cancel_iff] at h
      simp [ih bs h]

/-- Uniqueness of identifiers is kept by get_keys. -/
theorem get_keys_wf (kme kme1 : KME) (caller target : String) (bits count : Nat)
    (recs : List KeyRecord) (hwf : kme.WF)
    (h : kme.get_keys caller target bits count = .ok (recs, kme1)) : kme1.WF := by
  obtain ⟨-, -, n, keys, -, hn, hlen, -, -, hiss, hfresh⟩ := get_keys_ok _ _ _ _ _ _ _ h
  unfold KME.WF at *
  have hl : (kme.fresh_ids.take n).length = keys.length := by
    rw [List.length_take, hlen]; omega
  rw [hiss, hfresh, List.map_append, issued_ids_zipWith _ _ _ _ hl, List.append_assoc,
    List.take_append_drop]
  exact hwf


/-- The KME finds, in the order asked, the keys of one get_keys call under their identifiers,
whatever was issued before (under other identifiers) and after. -/
theorem find_keys_issued (kme : KME) (A B : String) (ids : List String) :
    ∀ (old later : List IssuedKey) (keys : List (List Nat)),
      kme.issued = old ++ List.zipWith (fun id bytes => IssuedKey.mk id A B bytes) ids keys
        ++ later →
      (∀ x ∈ old, x.key_id ∉ ids) → ids.Nodup → ids.length = keys.length →
      kme.find_keys B A ids
        = some (List.zipWith (fun id bytes => IssuedKey.mk id A B bytes) ids keys) := by
  induction ids with
  | nil =>
    intro old later keys _ _ _ _
    simp [KME.find_keys]
  | cons i is ih =>
    intro old later keys hiss hold hnd hlen
    cases keys with
    | nil => simp at hlen
    | cons b bs =>
      simp only [List.length_cons, Nat.add_right_cancel_iff] at hlen
      simp only [List.nodup_cons] at hnd
      have hfind : kme.find_key B A i = some ⟨i, A, B, b⟩ := by
        unfold KME.find_key
        rw [hiss, List.append_assoc, List.find?_append]
        have hnone : old.find? (fun k => decide (k.key_id = i ∧ k.master_sae = A ∧
            k.slave_sae = B)) = none := by
          rw [List.find?_eq_none]
          intro x hx hp
          simp only [decide_eq_true_eq] at hp
          exact hold x hx (by rw [hp.1]; exact List.mem_cons_self _ _)
        rw [hnone]
        simp
      have hrest := ih (old ++ [⟨i, A, B, b⟩]) later bs
        (by rw [hiss]; simp)
        (by
          intro x hx
          rcases List.mem_append.1 hx with hx | hx
          · exact fun hmem => hold x hx (List.mem_cons_of_mem _ hmem)
          · simp only [List.mem_singleton] at hx
            subst hx
            exact hnd.1)
        hnd.2 hlen
      simp [KME.find_keys, hfind, hrest]

theorem record_ids_zipWith (key_size : Nat) (ids : List String) (keys : List (List Nat))
    (h : ids.length = keys.length) :
    (List.zipWith (KeyRecord.of_request key_size) ids keys).map KeyRecord.key_id = ids := by
  induction ids generalizing keys with
  | nil => simp
  | cons i is ih =>
    cases keys with
    | nil => simp at h
    | cons b bs =>
      simp only [List.length_cons, Nat.add_right_cancel_iff] at h
      simp [ih bs h, KeyRecord.of_request]

theorem reaches_issued (kme1 kme2 : KME) (h : KME.Reaches kme1 kme2) :
    ∃ later, kme2.issued = kme1.issued ++ later := by
  induction h with
  | refl => exact ⟨[], by simp⟩
  | step k2 k3 caller target bits count recs _ hg ih =>
    obtain ⟨later, hl⟩ := ih
    obtain ⟨-, -, n, keys, -, -, -, -, -, hiss, -⟩ := get_keys_ok _ _ _ _ _ _ _ hg
    exact ⟨later ++ _, by rw [hiss, hl, List.append_assoc]⟩

theorem reaches_wf (kme1 kme2 : KME) (h : KME.Reaches kme1 kme2) (hwf : kme1.WF) : kme2.WF := by
  induction h with
  | refl => exact hwf
  | step k2 k3 caller target bits count recs _ hg ih =>
    exact get_keys_wf _ _ _ _ _ _ _ ih hg

/-- What a get_keys call and the matching, later get_keys_by_ids call of the peer return. -/
theorem round_trip_records (kme kme1 kme2 : KME) (A B : String) (bits N : Nat)
    (recsA : List KeyRecord) (hwf : kme.WF)
    (hA : kme.get_keys A B bits N = .ok (recsA, kme1)) (hrun : KME.Reaches kme1 kme2) :
    ∃ ids keys, ids.length = keys.length ∧ ids.length ≤ N ∧ ids.Nodup ∧
      (∀ c ∈ keys, c.length = bits / 8) ∧
      recsA = List.zipWith (KeyRecord.of_request (bits / 8)) ids keys ∧
      recsA.map KeyRecord.key_id = ids ∧
      kme2.get_keys_by_ids B A (recsA.map KeyRecord.key_id) recsA.length
        = .ok ((List.zipWith (fun id bytes => IssuedKey.mk id A B bytes) ids keys).map
            KeyRecord.of_issued) := by
  obtain ⟨-, -, n, keys, hnN, hn, hlen, hsz, hrecs, hiss, -⟩ := get_keys_ok _ _ _ _ _ _ _ hA
  obtain ⟨later, hl⟩ := reaches_issued _ _ hrun
  have hl1 : (kme.fresh_ids.take n).length = n := by
    rw [List.length_take]; omega
  have hl2 : (kme.fresh_ids.take n).length = keys.length := by rw [hl1, hlen]
  have hnd : (kme.issued.map IssuedKey.key_id ++ kme.fresh_ids).Nodup := hwf
  rw [← List.take_append_drop n kme.fresh_ids, ← List.append_assoc] at hnd
  have hnd1 := (List.nodup_append.1 hnd).1
  have hnd2 := List.nodup_append.1 hnd1
  have hids : recsA.map KeyRecord.key_id = kme.fresh_ids.take n := by
    rw [hrecs]
    exact record_ids_zipWith _ _ _ hl2
  have hlenA : recsA.length = (kme.fresh_ids.take n).length := by
    rw [← hids, List.length_map]
  refine ⟨kme.fresh_ids.take n, keys, hl2, by omega, hnd2.2.1, hsz, hrecs, hids, ?_⟩
  have hfind := find_keys_issued kme2 A B (kme.fresh_ids.take n) kme.issued later keys
    (by rw [hl, hiss])
    (by
      intro x hx hmem
      exact hnd2.2.2 (List.mem_map_of_mem _ hx) hmem)
    hnd2.2.1 hl2
  simp [KME.get_keys_by_ids, hids, hlenA, hfind]


theorem find_keys_ids (kme : KME) (caller source : String) (key_ids : List String) :
    ∀ keys, kme.find_keys caller source key_ids = some keys →
      keys.map IssuedKey.key_id = key_ids := by
  induction key_ids with
  | nil =>
    intro keys h
    simp only [KME.find_keys, Option.some.injEq] at h
    subst h
    rfl
  | cons i is ih =>
    intro keys h
    simp only [KME.find_keys] at h
    cases hk : kme.find_key caller source i with
    | none => simp [hk] at h
    | some k =>
      cases hks : kme.find_keys caller source is with
      | none => simp [hk, hks] at h
      | some ks =>
        simp only [hk, hks, Option.some.injEq] at h
        subst h
        have hp := List.find?_some hk
        simp only [decide_eq_true_eq] at hp
        simp [hp.1, ih ks hks]

/-- C1.  Round trip between two peers.  In every run of the modelled KME that starts from a
state with unique identifiers: when peer `A` calls get_keys for target `B` with count `N`
and is handed the records `recsA` (at most `N`, all `N` when the KME has the material), a
later get_keys_by_ids call of peer `B`, for source `A` and the identifiers of `recsA` in
order, succeeds; it returns as many records, and at every position `k` borrowing from
`A`'s record and from `B`'s record exposes the same bytes, all `key_size_bits / 8` of
them. -/
theorem get_keys_round_trip (kme kme1 kme2 : KME) (A B : String) (bits N : Nat)
    (recsA : List KeyRecord) (hwf : kme.WF)
    (hA : kme.get_keys A B bits N = .ok (recsA, kme1)) (hrun : KME.Reaches kme1 kme2) :
    recsA.length ≤ N ∧
    (∃ recsB,
      kme2.get_keys_by_ids B A (recsA.map KeyRecord.key_id) recsA.length = .ok recsB) ∧
    ∀ recsB, kme2.get_keys_by_ids B A (recsA.map KeyRecord.key_id) recsA.length = .ok recsB →
      recsB.length = recsA.length ∧
      ∀ (k : Nat) (ra rb : KeyRecord), recsA[k]? = some ra → recsB[k]? = some rb →
        ∃ view : List Nat, ra.borrowed_bytes = .ok view ∧ rb.borrowed_bytes = .ok view ∧
          view.length = bits / 8 := by
  obtain ⟨ids, keys, hlen, hN, -, hsz, hrecs, hids, hB⟩ :=
    round_trip_records kme kme1 kme2 A B bits N recsA hwf hA hrun
  have hlenA : recsA.length = ids.length := by rw [← hids, List.length_map]
  refine ⟨by omega, ⟨_, hB⟩, ?_⟩
  intro recsB hB1
  rw [hB] at hB1
  simp only [Except.ok.injEq] at hB1
  subst hB1
  refine ⟨by simp [hlenA, hlen], ?_⟩
  intro k ra rb hra hrb
  rw [hrecs, List.getElem?_zipWith_eq_some] at hra
  obtain ⟨id, b, hid, hb, rfl⟩ := hra
  rw [List.getElem?_map, List.getElem?_zipWith] at hrb
  simp only [hid, hb, Option.map_some', Option.some.injEq] at hrb
  subst hrb
  exact ⟨b, rfl, rfl, hsz b (List.getElem?_mem hb)⟩

/-- C2.  get_keys_by_ids preserves the caller's order.  Whenever the modelled call succeeds
for a sequence `key_ids` (non-empty or not), the result has the length of `key_ids` and the
record at position `k` carries the identifier `key_ids[k]`, for every `k`. -/
theorem get_keys_by_ids_order (kme : KME) (caller source : String) (key_ids : List String)
    (count : Nat) (recs : List KeyRecord)
    (h : kme.get_keys_by_ids caller source key_ids count = .ok recs) :
    recs.length = key_ids.length ∧
    (∀ (k : Nat) (key_id : String), key_ids[k]? = some key_id →
      recs[k]?.map KeyRecord.key_id = some key_id) ∧
    (∀ (k : Nat) (r : KeyRecord), recs[k]? = some r → key_ids[k]? = some r.key_id) := by
  simp only [KME.get_keys_by_ids] at h
  split at h
  · cases h
  cases hk : kme.find_keys caller source key_ids with
  | none => simp [hk] at h
  | some keys =>
    simp only [hk, Except.ok.injEq] at h
    subst h
    have hids := find_keys_ids kme caller source key_ids keys hk
    have hmap : (keys.map KeyRecord.of_issued).map KeyRecord.key_id = key_ids := by
      rw [← hids, List.map_map]
      rfl
    refine ⟨?_, ?_, ?_⟩
    · rw [← hids]
      simp
    · intro k key_id hkid
      rw [← List.getElem?_map, hmap]
      exact hkid
    · intro k r hr
      rw [← hmap, List.getElem?_map, hr]
      rfl

/-- C3.  Key size conversion.  Whenever the modelled get_keys call for `key_size_bits`
succeeds, `key_size_bits` is positive and a multiple of 8, and every record it returns, as
well as every record the matching get_keys_by_ids call of the peer returns, has `key_size`
equal to `key_size_bits / 8`, so that `8 * key_size = key_size_bits`; the buffer of the record
holds exactly `key_size` bytes. -/
theorem key_size_conversion (kme kme1 kme2 : KME) (A B : String) (bits N : Nat)
    (recsA recsB : List KeyRecord) (hwf : kme.WF)
    (hA : kme.get_keys A B bits N = .ok (recsA, kme1)) (hrun : KME.Reaches kme1 kme2)
    (hB : kme2.get_keys_by_ids B A (recsA.map KeyRecord.key_id) recsA.length = .ok recsB) :
    0 < bits ∧ bits % 8 = 0 ∧
    ∀ r ∈ recsA ++ recsB,
      r.key_size = bits / 8 ∧ 8 * r.key_size = bits ∧ r.buffer.bytes.length = r.key_size := by
  obtain ⟨hpos, hmod, -⟩ := get_keys_ok _ _ _ _ _ _ _ hA
  obtain ⟨ids, keys, hlen, -, -, hsz, hrecs, -, hB1⟩ :=
    round_trip_records kme kme1 kme2 A B bits N recsA hwf hA hrun
  rw [hB] at hB1
  simp only [Except.ok.injEq] at hB1
  have h8 : 8 * (bits / 8) = bits := by omega
  refine ⟨hpos, hmod, ?_⟩
  intro r hr
  rcases List.mem_append.1 hr with hr | hr
  · rw [hrecs] at hr
    obtain ⟨k, hrk'⟩ := List.mem_iff_getElem?.1 hr
    rw [List.getElem?_zipWith_eq_some] at hrk'
    obtain ⟨id, b, -, hb, rfl⟩ := hrk'
    exact ⟨rfl, h8, hsz b (List.getElem?_mem hb)⟩
  · rw [hB1] at hr
    simp only [List.mem_map] at hr
    obtain ⟨x, hx, rfl⟩ := hr
    obtain ⟨k, hxk'⟩ := List.mem_iff_getElem?.1 hx
    rw [List.getElem?_zipWith_eq_some] at hxk'
    obtain ⟨id, b, -, hb, rfl⟩ := hxk'
    have := hsz b (List.getElem?_mem hb)
    exact ⟨this, by simp only [KeyRecord.of_issued]; omega, rfl⟩



set_option maxRecDepth 100000

/-! ## The theorems at concrete inputs -/

theorem example_issue_ok :
    example_kme.get_keys SAE_ID_1 SAE_ID_2 KEY_SIZE_BITS amount_of_keys
      = .ok (example_records, example_kme_1) := by
  rfl

theorem example_reaches : KME.Reaches example_kme_1 example_kme_2 :=
  KME.Reaches.step _ _ _ SAE_ID_1 SAE_ID_2 128 1
    [⟨"0b5e6c3a-04", 16, ⟨(example_kme_1.material SAE_ID_1 SAE_ID_2).take 16, .Protected⟩⟩]
    (KME.Reaches.refl _) (by rfl)

theorem example_by_ids_ok :
    example_kme_2.get_keys_by_ids SAE_ID_2 SAE_ID_1 (example_records.map KeyRecord.key_id)
      example_records.length = .ok example_records_2 := by
  rfl

/-- The round trip at the example: the KME of the example hands three keys of 256 bits to `client-1`,
serves another request, and then hands `client-2` records with the same bytes. -/
theorem get_keys_round_trip_witness :
    example_kme.WF ∧ example_records.length = 3 ∧
    (example_records.length ≤ amount_of_keys ∧
      (∃ recsB,
        example_kme_2.get_keys_by_ids SAE_ID_2 SAE_ID_1 (example_records.map KeyRecord.key_id)
          example_records.length = .ok recsB) ∧
      ∀ recsB,
        example_kme_2.get_keys_by_ids SAE_ID_2 SAE_ID_1 (example_records.map KeyRecord.key_id)
          example_records.length = .ok recsB →
        recsB.length = example_records.length ∧
        ∀ (k : Nat) (ra rb : KeyRecord), example_records[k]? = some ra → recsB[k]? = some rb →
          ∃ view : List Nat, ra.borrowed_bytes = .ok view ∧ rb.borrowed_bytes = .ok view ∧
            view.length = KEY_SIZE_BITS / 8) :=
  ⟨by decide, by decide,
    get_keys_round_trip example_kme example_kme_1 example_kme_2 SAE_ID_1 SAE_ID_2 KEY_SIZE_BITS
      amount_of_keys example_records (by decide) example_issue_ok example_reaches⟩

/-- The order of `get_keys_by_ids` at the example: asked for the third and the first identifier, the KME of the example
returns the third and the first key, in that order. -/
theorem get_keys_by_ids_order_witness :
    example_records_3_1.map KeyRecord.key_id = ["0b5e6c3a-03", "0b5e6c3a-01"] ∧
    (example_records_3_1.length = ["0b5e6c3a-03", "0b5e6c3a-01"].length ∧
      (∀ (k : Nat) (key_id : String), ["0b5e6c3a-03", "0b5e6c3a-01"][k]? = some key_id →
        example_records_3_1[k]?.map KeyRecord.key_id = some key_id) ∧
      (∀ (k : Nat) (r : KeyRecord), example_records_3_1[k]? = some r →
        ["0b5e6c3a-03", "0b5e6c3a-01"][k]? = some r.key_id)) :=
  ⟨by decide,
    get_keys_by_ids_order example_kme_1 SAE_ID_2 SAE_ID_1 ["0b5e6c3a-03", "0b5e6c3a-01"] 2
      example_records_3_1 (by rfl)⟩

/-- The key size at the example: `KEY_SIZE_BITS = 256` gives records of `KEY_SIZE_BYTES = 32` bytes on
both sides. -/
theorem key_size_conversion_witness :
    KEY_SIZE_BYTES = 32 ∧ (example_records ++ example_records_2).length = 6 ∧
    (0 < KEY_SIZE_BITS ∧ KEY_SIZE_BITS % 8 = 0 ∧
      ∀ r ∈ example_records ++ example_records_2,
        r.key_size = KEY_SIZE_BITS / 8 ∧ 8 * r.key_size = KEY_SIZE_BITS ∧
          r.buffer.bytes.length = r.key_size) :=
  ⟨by decide, by decide,
    key_size_conversion example_kme example_kme_1 example_kme_2 SAE_ID_1 SAE_ID_2 KEY_SIZE_BITS
      amount_of_keys example_records example_records_2 (by decide) example_issue_ok
      example_reaches example_by_ids_ok⟩

/-- The buffer lifecycle at the example: `main` returns 0 against the example KME, and each of the six buffers
11, 12, 13, 21, 22, 23 goes through Protected, Borrowed, Protected, Released. -/
theorem main_buffer_lifecycle_witness :
    (main example_env).outcome = .returned 0 ∧
    ((List.zipWith E14_QKD_Key.of_record [11, 12, 13] example_records ++
        List.zipWith E14_QKD_Key.of_record [21, 22, 23] example_records_2).length
      = 2 * amount_of_keys ∧
    ∀ k ∈ List.zipWith E14_QKD_Key.of_record [11, 12, 13] example_records ++
        List.zipWith E14_QKD_Key.of_record [21, 22, 23] example_records_2,
      buffer_lifecycle k.key_bytes_protected (main example_env).trace
        = some [.Protected, .Borrowed, .Protected, .Released]) :=
  ⟨by decide,
    main_buffer_lifecycle example_env _ _ rfl rfl (by decide) (by decide) (by decide)
      (by decide)⟩

/-- C5 at the failing input.  In the example environment with the second
`e14_new_etsi014_client` failing, `e14_get_keys` has handed `main` the buffers 11, 12 and 13,
`main` returns 1, and none of the three buffers was released: no `e14_free_qkd_key_bytes`
call names them, and their lifecycle is still the single state Protected. -/
theorem main_open_2_failure_keeps_keys :
    example_env_open_2_fails.get_keys
      = .ok [⟨"0b5e6c3a-01", 32, 11⟩, ⟨"0b5e6c3a-02", 32, 12⟩, ⟨"0b5e6c3a-03", 32, 13⟩] ∧
    (main example_env_open_2_fails).outcome = .returned 1 ∧
    ∀ buffer ∈ [11, 12, 13],
      Event.e14_free_qkd_key_bytes buffer ∉ (main example_env_open_2_fails).trace ∧
      buffer_lifecycle buffer (main example_env_open_2_fails).trace = some [.Protected] := by
  decide

/-- The same on the other error path after a successful `e14_get_keys`: when
`e14_get_keys_by_ids` fails, `main` returns 1 without releasing the buffers 11, 12, 13. -/
theorem main_by_ids_failure_keeps_keys :
    (main example_env_by_ids_fails).outcome = .returned 1 ∧
    ∀ buffer ∈ [11, 12, 13],
      Event.e14_free_qkd_key_bytes buffer ∉ (main example_env_by_ids_fails).trace ∧
      buffer_lifecycle buffer (main example_env_by_ids_fails).trace = some [.Protected] := by
  decide

/-- A failed assertion ends the run without a `return`: with all five calls successful and
the first pair of keys differing in the last byte, the assertion of line 65 fails in the
first iteration, after both buffers were borrowed and before anything is returned or
released. -/
theorem main_aborts_when_keys_differ :
    example_env_keys_differ.all_succeed ∧
    (main example_env_keys_differ).outcome = .assert_failed 65 ∧
    (main example_env_keys_differ).trace.drop 10
      = [.e14_unprotect_qkd_key_bytes 11, .e14_unprotect_qkd_key_bytes 21] :=
  ⟨⟨⟨_, rfl⟩, ⟨_, rfl⟩, ⟨_, rfl⟩, ⟨_, rfl⟩, ⟨_, rfl⟩⟩, by decide, by decide⟩

/-- No run of `main` that returns 1 makes any call on a key buffer. -/
theorem main_error_paths_release_nothing (env : Env) (h : (main env).outcome = .returned 1) :
    ∀ ev ∈ (main env).trace, ¬ ev.on_key_buffer := by
  have hp := main_path env
  generalize main env = r at hp h
  cases hp with
  | aborted c1 st recs1 a b c c2 recs2 d e f o es h1 h2 h3 hk1 h4 h5 hk2 ha ho hes hov =>
    simp only at h
    subst h
    exact absurd ho (by simp [Outcome.aborted])
  | success => simp at h
  | _ =>
    intro ev hev
    simp [trace_by_ids, trace_open_2, trace_get_keys, trace_status, failure_events] at hev
    rcases hev with rfl | rfl | rfl | rfl | rfl | rfl | rfl | rfl | rfl | rfl | rfl | rfl |
      rfl <;> simp [Event.on_key_buffer]

/-- C6 as stated fails.  The claim lets `main` return 0 exactly when all five calls succeed
and the assertions hold, and return 1 otherwise.  In the example environment with the first
pair of keys differing in the last byte all five calls succeed, the assertion of line 65
fails, and `main` neither returns 0 nor returns 1: the run ends in `abort()`. -/
theorem main_fail_fast_counterexample :
    ¬ (((main example_env_keys_differ).outcome = .returned 0 ↔
          example_env_keys_differ.all_succeed ∧ example_env_keys_differ.assertions_hold) ∧
       (¬ (example_env_keys_differ.all_succeed ∧ example_env_keys_differ.assertions_hold) →
          (main example_env_keys_differ).outcome = .returned 1)) := by
  have hout : (main example_env_keys_differ).outcome = .assert_failed 65 := by decide
  rintro ⟨h0, h1⟩
  have hn : ¬ (example_env_keys_differ.all_succeed ∧ example_env_keys_differ.assertions_hold) :=
    fun h => by
      have := h0.2 h
      rw [hout] at this
      cases this
  have := h1 hn
  rw [hout] at this
  cases this

end Etsi014
